import Mathlib

/-!
# Verification of the flowy SWF decision runtime

This file gives a shallow embedding of the core of the `flowy` workflow
framework and proves (or refutes) the frozen claims about it:

* the history folder `load_events` (`flowy/backend/swf.py`), which folds a
  paginated SWF event stream into the snapshot
  `(running, timedout, results, errors, order)`;
* the key-mangling helpers `_timer_key`, `_timer_call_key`,
  `_subworkflow_key`, `_subworkflow_call_key`;
* the decision scheduler `SWFScheduler` and the replay engine `_SWFWorkflow`
  (`flowy/task.py`): call-id reservation, the retry scan `_search_result`,
  the timer scan `_search_timer`, `_schedule`, `_finish`;
* the decision-turn context `SWFWorkflowContext` and proxy scheduling
  (`SWFActivityProxy.schedule`);
* the pagination helpers `poll_response_page` / `poll_next_decision`.

Python strings that serve as call keys are modelled as `List Char`; Python
dicts as association lists where a new binding is consed in front (lookup
finds the latest binding, exactly like dict assignment); Python sets as
`Finset`.  A Python function that can raise is modelled with `Except` or
`Option`, the error value naming the raising operation.
-/

namespace Flowy

/-- Call keys are the wire strings SWF carries (`activityId`, `timerId`,
`workflowId` and the ids derived from them); Python strings are modelled as
lists of characters. -/
abbrev Key := List Char

/-- The key contains no colon character. -/
def colonFree (k : Key) : Prop := ':' ∉ k

instance (k : Key) : Decidable (colonFree k) := by
  unfold colonFree; infer_instance

/-- Python `s.endswith(':t')`. -/
def endsT (k : Key) : Prop := k.reverse.take 2 = ['t', ':']

instance (k : Key) : Decidable (endsT k) := by
  unfold endsT; infer_instance

/-- `_timer_key` (swf.py:859): mangle a call key by appending `:t`. -/
def timer_key (call_key : Key) : Key := call_key ++ [':', 't']

/-- `_timer_call_key` (swf.py:863): `assert timer_key.endswith(':t')`, then
strip the two suffix characters (`timer_key[:-2]`).  `none` models the
failing `assert` (an `AssertionError`). -/
def timer_call_key (tk : Key) : Option Key :=
  if endsT tk then some (tk.take (tk.length - 2)) else none

/-- Python `s.split(':')` on character lists: the list of colon-separated
fields, empty fields included. -/
def splitColon : Key → List Key
  | [] => [[]]
  | c :: rest =>
    match splitColon rest with
    | [] => [[]]
    | f :: fs => if c = ':' then [] :: f :: fs else (c :: f) :: fs

/-- `_subworkflow_call_key` (swf.py:872): `subworkflow_key.split(':')[-1]`,
the field after the last colon. -/
def subworkflow_call_key (k : Key) : Key := (splitColon k).getLastD []

/-- `_subworkflow_key` (swf.py:868): `'%s:%s' % (uuid.uuid4(), call_key)`.
The random uuid token is a parameter. -/
def subworkflow_key (tok : Key) (call_key : Key) : Key := tok ++ ':' :: call_key

/-- `_subworkflow_id` (swf.py:855): `workflow_id.rsplit('-', 1)[-1]`, the
field after the last hyphen (the whole string if there is none). -/
def subworkflow_id (workflow_id : Key) : Key :=
  ((workflow_id.reverse.takeWhile (fun c => c ≠ '-'))).reverse

/-- The SWF history events consumed by `load_events`, carrying exactly the
attributes the folder reads.  `otherEvent` stands for any event type that is
not one of the eleven handled ones (the folder ignores it). -/
inductive SwfEvent
  | activityTaskScheduled (eventId : Nat) (activityId : Key)
  | activityTaskCompleted (scheduledEventId : Nat) (result : Key)
  | activityTaskFailed (scheduledEventId : Nat) (reason : Key)
  | activityTaskTimedOut (scheduledEventId : Nat)
  | scheduleActivityTaskFailed (activityId : Key) (cause : Key)
  | startChildWorkflowExecutionInitiated (workflowId : Key)
  | childWorkflowExecutionCompleted (workflowId : Key) (result : Key)
  | childWorkflowExecutionFailed (workflowId : Key) (reason : Key)
  | childWorkflowExecutionTimedOut (workflowId : Key)
  | startChildWorkflowExecutionFailed (workflowId : Key) (cause : Key)
  | timerStarted (timerId : Key)
  | timerFired (timerId : Key)
  | otherEvent
deriving DecidableEq

/-- The state accumulated by `load_events` (swf.py:544): the five snapshot
buckets plus the `event2call` map from `ActivityTaskScheduled` event ids to
activity ids.  A fired timer stores `None` in `results`, hence the
`Option Key` value type. -/
structure FoldSt where
  running : Finset Key
  timedout : Finset Key
  results : List (Key × Option Key)
  errors : List (Key × Key)
  order : List Key
  event2call : List (Nat × Key)
deriving DecidableEq

/-- The ways a single `load_events` iteration can raise:
`keyErrorMap` models `event2call[...]` on a missing event id,
`keyErrorSet` models `running.remove(...)` on a missing member, and
`assertErr` models the assertion in `_timer_call_key`. -/
inductive FoldErr
  | keyErrorMap
  | keyErrorSet
  | assertErr
deriving DecidableEq

instance {ε α : Type} [DecidableEq ε] [DecidableEq α] :
    DecidableEq (Except ε α) := fun a b =>
  match a, b with
  | .ok x, .ok y =>
    if h : x = y then isTrue (by rw [h])
    else isFalse (fun hc => h (by injection hc))
  | .error x, .error y =>
    if h : x = y then isTrue (by rw [h])
    else isFalse (fun hc => h (by injection hc))
  | .ok _, .error _ => isFalse (fun hc => by injection hc)
  | .error _, .ok _ => isFalse (fun hc => by injection hc)

/-- Python `set.remove`: erase the member, raising `KeyError` if absent. -/
def setRemove (s : Finset Key) (k : Key) : Except FoldErr (Finset Key) :=
  if k ∈ s then .ok (s.erase k) else .error .keyErrorSet

/-- The key set of an association list (a Python dict's keys). -/
def dictKeys (m : List (Key × α)) : Finset Key := (m.map Prod.fst).toFinset

/-- One iteration of the event loop in `load_events` (swf.py:558-632),
one branch per handled `eventType`. -/
def foldStep (s : FoldSt) : SwfEvent → Except FoldErr FoldSt
  | .activityTaskScheduled eventId eid =>
      .ok { s with event2call := (eventId, eid) :: s.event2call,
                   running := insert eid s.running }
  | .activityTaskCompleted seid result =>
      match s.event2call.lookup seid with
      | none => .error .keyErrorMap
      | some eid =>
        match setRemove s.running eid with
        | .error e => .error e
        | .ok r => .ok { s with running := r,
                                results := (eid, some result) :: s.results,
                                 order := s.order ++ [eid] }
  | .activityTaskFailed seid reason =>
      match s.event2call.lookup seid with
      | none => .error .keyErrorMap
      | some eid =>
        match setRemove s.running eid with
        | .error e => .error e
        | .ok r => .ok { s with running := r,
                                errors := (eid, reason) :: s.errors,
                                 order := s.order ++ [eid] }
  | .activityTaskTimedOut seid =>
      match s.event2call.lookup seid with
      | none => .error .keyErrorMap
      | some eid =>
        match setRemove s.running eid with
        | .error e => .error e
        | .ok r => .ok { s with running := r,
                                timedout := insert eid s.timedout,
                                 order := s.order ++ [eid] }
  | .scheduleActivityTaskFailed eid cause =>
      .ok { s with errors := (eid, cause) :: s.errors,
                   order := s.order ++ [eid] }
  | .startChildWorkflowExecutionInitiated wid =>
      .ok { s with running := insert (subworkflow_call_key wid) s.running }
  | .childWorkflowExecutionCompleted wid result =>
      match setRemove s.running (subworkflow_call_key wid) with
      | .error e => .error e
      | .ok r => .ok { s with running := r,
                              results := (subworkflow_call_key wid, some result) :: s.results,
                              order := s.order ++ [subworkflow_call_key wid] }
  | .childWorkflowExecutionFailed wid reason =>
      match setRemove s.running (subworkflow_call_key wid) with
      | .error e => .error e
      | .ok r => .ok { s with running := r,
                              errors := (subworkflow_call_key wid, reason) :: s.errors,
                              order := s.order ++ [subworkflow_call_key wid] }
  | .childWorkflowExecutionTimedOut wid =>
      match setRemove s.running (subworkflow_call_key wid) with
      | .error e => .error e
      | .ok r => .ok { s with running := r,
                              timedout := insert (subworkflow_call_key wid) s.timedout,
                              order := s.order ++ [subworkflow_call_key wid] }
  | .startChildWorkflowExecutionFailed wid cause =>
      .ok { s with errors := (subworkflow_call_key wid, cause) :: s.errors,
                   order := s.order ++ [subworkflow_call_key wid] }
  | .timerStarted tid =>
      match timer_call_key tid with
      | none => .error .assertErr
      | some base => .ok { s with running := insert base s.running }
  | .timerFired tid =>
      match timer_call_key tid with
      | none => .error .assertErr
      | some base =>
        match setRemove s.running base with
        | .error e => .error e
        | .ok r => .ok { s with running := r,
                                results := (tid, none) :: s.results }
  | .otherEvent => .ok s

/-- The empty folder state (`load_events` locals before the loop). -/
def foldInit : FoldSt :=
  { running := ∅, timedout := ∅, results := [], errors := [], order := [],
    event2call := [] }

/-- The event loop of `load_events` started from an arbitrary state. -/
def load_from (s : FoldSt) : List SwfEvent → Except FoldErr FoldSt
  | [] => .ok s
  | e :: rest =>
    match foldStep s e with
    | .error err => .error err
    | .ok s2 => load_from s2 rest

/-- `load_events` (swf.py:544): fold all events, propagating any raised
exception. -/
def load_events (events : List SwfEvent) : Except FoldErr FoldSt :=
  load_from foldInit events


/-! ## Key mangling facts -/

theorem endsT_timer_key (base : Key) : endsT (timer_key base) := by
  unfold endsT timer_key
  simp

theorem timer_call_key_timer_key (base : Key) :
    timer_call_key (timer_key base) = some base := by
  unfold timer_call_key
  rw [if_pos (endsT_timer_key base)]
  unfold timer_key
  simp [List.take_left]

/-! ## Claim C3: timer events in the history folder

The claim asserts that `load_events` adds the *mangled* key `"<id>:t"` to
`running` on `TimerStarted` and that `TimerFired` stores `results[id] = null`
under the *unmangled* call id.  The code does the opposite: the wire
`timerId` already carries the `:t` suffix (the scheduler mangles before
emitting, swf.py:716-719); `TimerStarted` strips the suffix and adds the
unmangled call id to `running` (swf.py:624-628), and `TimerFired` removes the
unmangled id but stores `results[timerId] = None` under the *mangled* wire
key (swf.py:629-632). -/

/-- C3 counterexample: on the one-event history `[TimerStarted "0:t"]` the
folder puts the unmangled `"0"` into `running`, not the mangled `"0:t"` (nor
`"0:t:t"`); after the matching `TimerFired`, `results` is keyed by the
mangled `"0:t"`, not by `"0"`; and a `TimerStarted` whose id lacks the `:t`
suffix is rejected outright rather than mangled. -/
theorem C3_counterexample :
    (∃ s : FoldSt, load_events [.timerStarted ['0', ':', 't']] = .ok s
      ∧ s.running = {['0']}
      ∧ (['0', ':', 't'] : Key) ∉ s.running
      ∧ (['0', ':', 't', ':', 't'] : Key) ∉ s.running)
    ∧ (∃ s : FoldSt,
        load_events [.timerStarted ['0', ':', 't'], .timerFired ['0', ':', 't']] = .ok s
        ∧ s.results = [(['0', ':', 't'], none)]
        ∧ (['0'] : Key) ∉ dictKeys s.results
        ∧ s.order = [])
    ∧ load_events [.timerStarted ['0']] = .error .assertErr := by
  refine ⟨⟨_, rfl, ?_, ?_, ?_⟩, ⟨_, rfl, ?_, ?_, ?_⟩, ?_⟩ <;> decide

/-- C3 amended: processing `TimerStarted` with wire timer id
`timer_key base = "<base>:t"` adds the *unmangled* call id `base` to
`running`; the matching `TimerFired` removes `base` from `running` and
records `results[timer_key base] = null` under the *mangled* wire key,
appending nothing to `order` (all other snapshot fields are untouched). -/
theorem C3_amended (s : FoldSt) (base : Key) :
    foldStep s (.timerStarted (timer_key base)) =
      .ok { s with running := insert base s.running }
    ∧ (base ∈ s.running →
        foldStep s (.timerFired (timer_key base)) =
          .ok { s with running := s.running.erase base,
                       results := (timer_key base, none) :: s.results }) := by
  constructor
  · simp [foldStep, timer_call_key_timer_key]
  · intro hmem
    simp [foldStep, timer_call_key_timer_key, setRemove, hmem]

/-- Witness for `C3_amended` at a concrete state with `"7" ∈ running`. -/
theorem C3_amended_witness :
    foldStep
      { running := {['7']}, timedout := ∅, results := [], errors := [],
        order := [], event2call := [] }
      (.timerFired (timer_key ['7'])) =
      .ok { running := ∅, timedout := ∅,
            results := [(timer_key ['7'], none)], errors := [],
            order := [], event2call := [] } := by
  have h := (C3_amended
    { running := {['7']}, timedout := ∅, results := [], errors := [],
      order := [], event2call := [] } ['7']).2 (by decide)
  rw [h]
  decide

/-! ## The decision buffer (task.py `SWFScheduler`)

`SWFScheduler` (task.py:289-339) wraps a `Layer1Decisions` buffer, a task
token and a rate limit.  `flush` sends the buffer once and marks the
scheduler closed; `fail`, `complete` and `restart` replace the buffer with a
single terminal decision and flush; the three schedule operations append one
decision while the buffer holds fewer than `rate_limit` entries and drop the
attempt silently otherwise.  The remote transport is modelled as always
succeeding; `sent` records every response actually handed to
`respond_decision_task_completed`. -/

/-- The decimal wire form of a call id (`str(call_id)`). -/
def natKey (n : Nat) : Key := (toString n).toList

/-- The decision payloads accumulated in a `Layer1Decisions` buffer. -/
inductive TDecision
  | startTimer (timerId : Key) (startToFireTimeout : Key)
  | scheduleActivityTask (activityId : Key) (input : String)
  | startChildWorkflowExecution (workflowId : Key) (input : String)
  | failWorkflowExecution (reason : String)
  | completeWorkflowExecution (result : String)
  | continueAsNewWorkflowExecution (input : String)
deriving DecidableEq

/-- The decision is one of the three scheduling kinds. -/
def isSchedulingB : TDecision → Bool
  | .startTimer _ _ => true
  | .scheduleActivityTask _ _ => true
  | .startChildWorkflowExecution _ _ => true
  | _ => false

/-- The decision is one of the three terminal kinds. -/
def isTerminalB : TDecision → Bool
  | .failWorkflowExecution _ => true
  | .completeWorkflowExecution _ => true
  | .continueAsNewWorkflowExecution _ => true
  | _ => false

/-- The state of one `SWFScheduler`: the decision buffer, the closed flag,
and the log of responses sent to the service. -/
structure SchedState where
  decisions : List TDecision
  closed : Bool
  sent : List (List TDecision)
deriving DecidableEq

/-- A fresh scheduler (task.py:290-295). -/
def schedInit : SchedState := { decisions := [], closed := false, sent := [] }

/-- `SWFScheduler.flush` (task.py:297-308): ignore everything after the
first call; otherwise mark closed and respond with the buffer.  The returned
`Bool` is the method's return value (the transport is modelled as always
succeeding; a transport error would only flip the returned value, the
response attempt and the closing both still happen). -/
def schedFlush (s : SchedState) : Bool × SchedState :=
  if s.closed then (false, s)
  else (true, { s with closed := true, sent := s.sent ++ [s.decisions] })

/-- `SWFScheduler.fail` (task.py:315-318): replace the buffer with the
single fail decision (reason truncated to 256 characters) and flush. -/
def schedFail (s : SchedState) (reason : String) : Bool × SchedState :=
  schedFlush { s with decisions := [.failWorkflowExecution (reason.take 256)] }

/-- `SWFScheduler.complete` (task.py:320-323): replace the buffer with the
single complete decision and flush. -/
def schedComplete (s : SchedState) (result : String) : Bool × SchedState :=
  schedFlush { s with decisions := [.completeWorkflowExecution result] }

/-- Modelled from the spec: `spec.restart(decisions, input, tags)` comes
from `flowy.spec`, which is not under src/; per the spec, `restart`
"replace[s] the buffer with a single decision of that kind", the
continue-as-new decision carrying the encoded input. -/
def specRestartFill (input : String) : List TDecision :=
  [.continueAsNewWorkflowExecution input]

/-- `SWFScheduler.restart` (task.py:310-313): replace the buffer, let the
workflow spec write the continue-as-new decision, and flush. -/
def schedRestart (s : SchedState) (input : String) : Bool × SchedState :=
  schedFlush { s with decisions := specRestartFill input }

/-- `SWFScheduler.schedule_timer` (task.py:325-330): under the rate limit,
append a start-timer decision whose `timer_id` is the plain decimal call id. -/
def schedTimer (rl : Int) (s : SchedState) (delay : Int) (callId : Nat) :
    SchedState :=
  if (s.decisions.length : Int) < rl then
    { s with decisions :=
        s.decisions ++ [.startTimer (natKey callId) (toString delay).toList] }
  else s

/-- Modelled from the spec: `spec.schedule(decisions, call_id, input)` for
an activity spec comes from `flowy.spec`, not under src/; per the spec it
"append[s] `schedule_activity`", one decision carrying the call id and the
encoded input. -/
def specScheduleActivity (d : List TDecision) (callId : Key) (input : String) :
    List TDecision :=
  d ++ [.scheduleActivityTask callId input]

/-- Modelled from the spec: `spec.schedule(decisions, call_id, input)` for a
workflow spec comes from `flowy.spec`, not under src/; per the spec it
"append[s] `schedule_child`", one start-child decision whose workflow id is
the (already mangled) call id it is handed. -/
def specScheduleChild (d : List TDecision) (workflowId : Key) (input : String) :
    List TDecision :=
  d ++ [.startChildWorkflowExecution workflowId input]

/-- `SWFScheduler.schedule_activity` (task.py:332-334): under the rate
limit, let the activity spec append its decision. -/
def schedActivity (rl : Int) (s : SchedState) (callId : Nat) (input : String) :
    SchedState :=
  if (s.decisions.length : Int) < rl then
    { s with decisions := specScheduleActivity s.decisions (natKey callId) input }
  else s

/-- `SWFScheduler.schedule_workflow` (task.py:336-339): under the rate
limit, mangle the call id to `'%s-%s' % (uuid4(), call_id)` (the random uuid
token is a parameter) and let the workflow spec append its decision. -/
def schedWorkflow (rl : Int) (s : SchedState) (tok : Key) (callId : Nat)
    (input : String) : SchedState :=
  if (s.decisions.length : Int) < rl then
    { s with decisions :=
        specScheduleChild s.decisions (tok ++ '-' :: natKey callId) input }
  else s

/-- The scheduler methods a decision turn can invoke, with their payloads. -/
inductive SchedOp
  | flushOp
  | failOp (reason : String)
  | completeOp (result : String)
  | restartOp (input : String)
  | timerOp (delay : Int) (callId : Nat)
  | activityOp (callId : Nat) (input : String)
  | workflowOp (tok : Key) (callId : Nat) (input : String)

/-- Dispatch one scheduler method call on the state. -/
def schedStep (rl : Int) (s : SchedState) : SchedOp → SchedState
  | .flushOp => (schedFlush s).2
  | .failOp r => (schedFail s r).2
  | .completeOp r => (schedComplete s r).2
  | .restartOp i => (schedRestart s i).2
  | .timerOp d c => schedTimer rl s d c
  | .activityOp c i => schedActivity rl s c i
  | .workflowOp t c i => schedWorkflow rl s t c i

/-- Run a sequence of scheduler method calls on a fresh scheduler. -/
def schedRun (rl : Int) (ops : List SchedOp) : SchedState :=
  ops.foldl (schedStep rl) schedInit

/-! ## Claim C5: at most one flush, terminal decisions stand alone -/

/-- The single-flush invariant: an unclosed scheduler has sent nothing and
holds no terminal decision in its buffer; at most one response was ever
sent; any sent response containing a terminal decision is that single
decision. -/
def singleFlushInv (s : SchedState) : Prop :=
  (s.closed = false → s.sent = []) ∧
  s.sent.length ≤ 1 ∧
  (s.closed = false → ∀ d ∈ s.decisions, isTerminalB d = false) ∧
  (∀ r ∈ s.sent, (∃ d ∈ r, isTerminalB d = true) → r.length = 1)

theorem singleFlushInv_init : singleFlushInv schedInit := by
  refine ⟨fun _ => rfl, by simp [schedInit], fun _ d hd => by simp [schedInit] at hd, ?_⟩
  intro r hr
  simp [schedInit] at hr

theorem singleFlushInv_flush (s : SchedState) (h : singleFlushInv s) :
    singleFlushInv (schedFlush s).2 := by
  obtain ⟨h1, h2, h3, h4⟩ := h
  unfold schedFlush
  by_cases hc : s.closed = true
  · simp [hc]; exact ⟨h1, h2, h3, h4⟩
  · have hc2 : s.closed = false := by
      cases hcl : s.closed
      · rfl
      · exact absurd hcl hc
    rw [hc2]
    simp only [if_neg (by simp : ¬ (false = true))]
    refine ⟨fun hfalse => by simp at hfalse, ?_, fun hfalse => by simp at hfalse, ?_⟩
    · rw [h1 hc2]
      simp
    · intro r hr hterm
      rw [h1 hc2] at hr
      simp at hr
      obtain ⟨d, hd, hdt⟩ := hterm
      rw [hr] at hd
      have := h3 hc2 d hd
      rw [this] at hdt
      exact absurd hdt (by simp)

theorem singleFlushInv_terminal (s : SchedState) (t : TDecision)
    (h : singleFlushInv s) :
    singleFlushInv (schedFlush { s with decisions := [t] }).2 := by
  obtain ⟨h1, h2, h3, h4⟩ := h
  unfold schedFlush
  cases hcl : s.closed with
  | true =>
    simp only [hcl, if_pos]
    exact ⟨fun hf => by simp at hf, h2, fun hf => by simp at hf, h4⟩
  | false =>
    simp only [hcl, Bool.false_eq_true, if_neg, not_false_eq_true]
    refine ⟨fun hfalse => by simp at hfalse, ?_,
      fun hfalse => by simp at hfalse, ?_⟩
    · rw [h1 hcl]
      simp
    · intro r hr _
      rw [h1 hcl] at hr
      simp at hr
      rw [hr]
      rfl

theorem singleFlushInv_append (s : SchedState) (d : TDecision)
    (hd : isTerminalB d = false) (h : singleFlushInv s) :
    singleFlushInv { s with decisions := s.decisions ++ [d] } := by
  obtain ⟨h1, h2, h3, h4⟩ := h
  refine ⟨h1, h2, ?_, h4⟩
  intro hc x hx
  simp only [List.mem_append, List.mem_singleton] at hx
  cases hx with
  | inl hx => exact h3 hc x hx
  | inr hx => rw [hx]; exact hd

theorem singleFlushInv_step (rl : Int) (s : SchedState) (op : SchedOp)
    (h : singleFlushInv s) : singleFlushInv (schedStep rl s op) := by
  cases op with
  | flushOp => exact singleFlushInv_flush s h
  | failOp r => exact singleFlushInv_terminal s _ h
  | completeOp r => exact singleFlushInv_terminal s _ h
  | restartOp i => exact singleFlushInv_terminal s _ h
  | timerOp d c =>
    show singleFlushInv (schedTimer rl s d c)
    unfold schedTimer
    by_cases hlt : (s.decisions.length : Int) < rl
    · rw [if_pos hlt]; exact singleFlushInv_append s _ rfl h
    · rw [if_neg hlt]; exact h
  | activityOp c i =>
    show singleFlushInv (schedActivity rl s c i)
    unfold schedActivity specScheduleActivity
    by_cases hlt : (s.decisions.length : Int) < rl
    · rw [if_pos hlt]; exact singleFlushInv_append s _ rfl h
    · rw [if_neg hlt]; exact h
  | workflowOp t c i =>
    show singleFlushInv (schedWorkflow rl s t c i)
    unfold schedWorkflow specScheduleChild
    by_cases hlt : (s.decisions.length : Int) < rl
    · rw [if_pos hlt]; exact singleFlushInv_append s _ rfl h
    · rw [if_neg hlt]; exact h

theorem singleFlushInv_foldl (rl : Int) (ops : List SchedOp) (s : SchedState)
    (h : singleFlushInv s) : singleFlushInv (ops.foldl (schedStep rl) s) := by
  induction ops generalizing s with
  | nil => exact h
  | cons op rest ih => exact ih _ (singleFlushInv_step rl s op h)

/-- C5: over any sequence of scheduler method calls in one decision turn, at
most one response is sent to the service, and any sent response that
contains a terminal decision (fail / complete / continue-as-new) consists of
exactly that decision, so no scheduling decision precedes it. -/
theorem C5_single_response (rl : Int) (ops : List SchedOp) :
    (schedRun rl ops).sent.length ≤ 1 ∧
    (∀ r ∈ (schedRun rl ops).sent,
      (∃ d ∈ r, isTerminalB d = true) → r.length = 1) := by
  have h := singleFlushInv_foldl rl ops schedInit singleFlushInv_init
  exact ⟨h.2.1, h.2.2.2⟩

set_option maxRecDepth 8000 in
/-- Witness for `C5_single_response`: a turn that schedules an activity,
fails, then tries to flush and schedule again, sends exactly one response,
the lone fail decision. -/
theorem C5_single_response_witness :
    (schedRun 64 [.activityOp 0 "i", .failOp "boom", .flushOp,
        .activityOp 1 "j"]).sent.length ≤ 1 ∧
    ([TDecision.failWorkflowExecution ("boom".take 256)] : List TDecision).length = 1 := by
  have h := C5_single_response 64
    [.activityOp 0 "i", .failOp "boom", .flushOp, .activityOp 1 "j"]
  refine ⟨h.1, ?_⟩
  refine h.2 [TDecision.failWorkflowExecution ("boom".take 256)] ?_ ?_
  · show _ ∈ (schedRun 64 _).sent
    decide
  · exact ⟨TDecision.failWorkflowExecution ("boom".take 256), by decide, rfl⟩

/-! ## Claim C6: the per-turn rate budget -/

/-- The number of scheduling decisions in a decision list. -/
def schedCount (r : List TDecision) : Nat := r.countP isSchedulingB

/-- The rate-budget invariant for a scheduler built with rate limit `rl`:
the buffer never holds more scheduling decisions than `max 0 rl`, scheduling
decisions never outnumber the buffer, and every sent response obeys the same
budget. -/
def rateInv (rl : Int) (s : SchedState) : Prop :=
  schedCount s.decisions ≤ s.decisions.length ∧
  (schedCount s.decisions : Int) ≤ max 0 rl ∧
  (∀ r ∈ s.sent, (schedCount r : Int) ≤ max 0 rl)

theorem rateInv_init (rl : Int) : rateInv rl schedInit := by
  refine ⟨Nat.le_refl _, by simp [schedInit, schedCount], ?_⟩
  intro r hr
  simp [schedInit] at hr

theorem rateInv_flush (rl : Int) (s : SchedState) (h : rateInv rl s) :
    rateInv rl (schedFlush s).2 := by
  obtain ⟨h1, h2, h3⟩ := h
  unfold schedFlush
  cases hcl : s.closed with
  | true => simpa using ⟨h1, h2, h3⟩
  | false =>
    simp only [Bool.false_eq_true, if_neg, not_false_eq_true]
    refine ⟨h1, h2, ?_⟩
    intro r hr
    simp only [List.mem_append, List.mem_singleton] at hr
    cases hr with
    | inl hr => exact h3 r hr
    | inr hr => rw [hr]; exact h2

theorem rateInv_replace (rl : Int) (s : SchedState) (t : TDecision)
    (ht : isSchedulingB t = false) (h : rateInv rl s) :
    rateInv rl (schedFlush { s with decisions := [t] }).2 := by
  obtain ⟨h1, h2, h3⟩ := h
  have hz : schedCount [t] = 0 := by simp [schedCount, List.countP_cons, ht]
  unfold schedFlush
  cases hcl : s.closed with
  | true =>
    simp only [if_pos]
    exact ⟨by rw [hz]; exact Nat.zero_le _, by rw [hz]; simp, h3⟩
  | false =>
    simp only [Bool.false_eq_true, if_neg, not_false_eq_true]
    refine ⟨by rw [hz]; exact Nat.zero_le _, by rw [hz]; simp, ?_⟩
    intro r hr
    simp only [List.mem_append, List.mem_singleton] at hr
    cases hr with
    | inl hr => exact h3 r hr
    | inr hr => rw [hr, hz]; simp

theorem rateInv_append (rl : Int) (s : SchedState) (d : TDecision)
    (hlt : (s.decisions.length : Int) < rl) (h : rateInv rl s) :
    rateInv rl { s with decisions := s.decisions ++ [d] } := by
  obtain ⟨h1, h2, h3⟩ := h
  have hcnt : schedCount (s.decisions ++ [d]) ≤ schedCount s.decisions + 1 := by
    unfold schedCount
    rw [List.countP_append]
    cases hb : isSchedulingB d <;> simp [List.countP_cons, hb]
  refine ⟨?_, ?_, h3⟩
  · calc schedCount (s.decisions ++ [d]) ≤ schedCount s.decisions + 1 := hcnt
      _ ≤ s.decisions.length + 1 := Nat.add_le_add_right h1 1
      _ = (s.decisions ++ [d]).length := by simp
  · have hlen : (schedCount s.decisions : Int) ≤ (s.decisions.length : Int) := by
      exact_mod_cast h1
    have : (schedCount (s.decisions ++ [d]) : Int) ≤ (schedCount s.decisions : Int) + 1 := by
      exact_mod_cast hcnt
    have hle : (schedCount (s.decisions ++ [d]) : Int) ≤ rl := by omega
    exact le_trans hle (le_max_right 0 rl)

theorem rateInv_step (rl : Int) (s : SchedState) (op : SchedOp)
    (h : rateInv rl s) : rateInv rl (schedStep rl s op) := by
  cases op with
  | flushOp => exact rateInv_flush rl s h
  | failOp r => exact rateInv_replace rl s _ rfl h
  | completeOp r => exact rateInv_replace rl s _ rfl h
  | restartOp i => exact rateInv_replace rl s _ rfl h
  | timerOp d c =>
    show rateInv rl (schedTimer rl s d c)
    unfold schedTimer
    by_cases hlt : (s.decisions.length : Int) < rl
    · rw [if_pos hlt]; exact rateInv_append rl s _ hlt h
    · rw [if_neg hlt]; exact h
  | activityOp c i =>
    show rateInv rl (schedActivity rl s c i)
    unfold schedActivity specScheduleActivity
    by_cases hlt : (s.decisions.length : Int) < rl
    · rw [if_pos hlt]; exact rateInv_append rl s _ hlt h
    · rw [if_neg hlt]; exact h
  | workflowOp t c i =>
    show rateInv rl (schedWorkflow rl s t c i)
    unfold schedWorkflow specScheduleChild
    by_cases hlt : (s.decisions.length : Int) < rl
    · rw [if_pos hlt]; exact rateInv_append rl s _ hlt h
    · rw [if_neg hlt]; exact h

theorem rateInv_foldl (rl : Int) (ops : List SchedOp) (s : SchedState)
    (h : rateInv rl s) : rateInv rl (ops.foldl (schedStep rl) s) := by
  induction ops generalizing s with
  | nil => exact h
  | cons op rest ih => exact ih _ (rateInv_step rl s op h)

/-- C6: with the rate limit `64 - |running at turn start|` that
`SWFWorkflow.__init__` (task.py:342-347) passes to its scheduler, any
sequence of scheduler calls keeps the number of scheduling decisions in the
buffer, and in every sent response, within `64 - |running|`; attempts beyond
the budget leave the state unchanged rather than raising (they are dropped
inside `schedule_timer` / `schedule_activity` / `schedule_workflow`). -/
theorem C6_rate_budget (run0 : Nat) (ops : List SchedOp) (h64 : run0 ≤ 64) :
    schedCount (schedRun (64 - (run0 : Int)) ops).decisions + run0 ≤ 64 ∧
    (∀ r ∈ (schedRun (64 - (run0 : Int)) ops).sent,
      schedCount r + run0 ≤ 64) := by
  unfold schedRun
  have h := rateInv_foldl (64 - (run0 : Int)) ops schedInit
    (rateInv_init (64 - (run0 : Int)))
  obtain ⟨_, h2, h3⟩ := h
  have hmax : max 0 (64 - (run0 : Int)) = 64 - (run0 : Int) := by omega
  constructor
  · rw [hmax] at h2
    omega
  · intro r hr
    have := h3 r hr
    rw [hmax] at this
    omega

/-- Witness for `C6_rate_budget`: a turn that starts with 63 running calls
and attempts two activity schedulings keeps the buffer within the single
remaining slot. -/
theorem C6_rate_budget_witness :
    schedCount (schedRun (64 - (63 : Nat) : Int)
      [SchedOp.activityOp 0 "i", SchedOp.activityOp 1 "j"]).decisions + 63 ≤ 64 := by
  exact (C6_rate_budget 63 [SchedOp.activityOp 0 "i", SchedOp.activityOp 1 "j"]
    (by decide)).1

/-! ## The replay engine (task.py `_SWFWorkflow`)

`_SWFWorkflow.__init__` (task.py:139-151) converts every snapshot key to
`int`, so here call ids are natural numbers.  `_schedule` (task.py:231-249)
drives one logical call: the optional delay timer, the retry scan, the
scheduling of a fresh attempt, and — in a `finally` block on every exit
path — the cursor reservation `_reserve_call_ids`. -/

/-- The snapshot as `_SWFWorkflow` holds it, after `int` conversion. -/
structure WSnap where
  running : Finset Nat
  timedout : Finset Nat
  results : List (Nat × Option String)
  errors : List (Nat × String)
  order : List Nat
deriving DecidableEq

/-- Python `list.index`: position of the first occurrence, `none` modelling
the `ValueError` on a missing element. -/
def pyIndex : List Nat → Nat → Option Nat
  | [], _ => none
  | x :: rest, y => if x = y then some 0 else (pyIndex rest y).map (· + 1)

/-- The outcomes of `_search_timer` (task.py:251-257). -/
inductive TRes
  | foundT
  | runningT
  | notfoundT
deriving DecidableEq

/-- `_search_timer` (task.py:251-257): a fired timer (the call id is a
`results` key) is `_FOUND`, a pending timer (the call id is in `running`)
is `_RUNNING`, otherwise `_NOTFOUND`.  The `+= 1` cursor bump on `_FOUND`
is applied by the caller `pySchedule`. -/
def searchTimer (snap : WSnap) (c : Nat) : TRes :=
  if (snap.results.lookup c).isSome then .foundT
  else if c ∈ snap.running then .runningT
  else .notfoundT

/-- The outcomes of `_search_result` (task.py:259-275) together with their
`(value, order)` payloads. -/
inductive SearchRes
  | timedoutS (pos : Nat)
  | runningS
  | errorS (reason : String) (pos : Nat)
  | foundS (value : Option String) (pos : Nat)
  | notfoundS
deriving DecidableEq

/-- `_search_result` (task.py:259-275): scan the ids `c, c+1, ..., c+n` in
order; an id in `timedout` consumes the attempt and the scan continues; the
first id not in `timedout` settles the call (running / error / result /
never scheduled); if every id is in `timedout` the call is `_TIMEDOUT` at
`order.index` of the last id.  The second component is the loop variable
`self._call_id` at exit; the outer `none` models the `ValueError` raised by
`order.index` on a missing id. -/
def searchResult (snap : WSnap) : Nat → Nat → Option (SearchRes × Nat)
  | c, n =>
    if c ∈ snap.timedout then
      match n with
      | 0 =>
        match pyIndex snap.order c with
        | none => none
        | some p => some (.timedoutS p, c)
      | m + 1 => searchResult snap (c + 1) m
    else if c ∈ snap.running then some (.runningS, c)
    else
      match snap.errors.lookup c with
      | some reason =>
        match pyIndex snap.order c with
        | none => none
        | some p => some (.errorS reason p, c)
      | none =>
        match snap.results.lookup c with
        | some v =>
          match pyIndex snap.order c with
          | none => none
          | some p => some (.foundS v p, c)
        | none => some (.notfoundS, c)

/-- `_reserve_call_ids` (task.py:277-282): the cursor after a call that
started at `call_id` with the given delay and retry. -/
def reserveCallIds (call_id : Nat) (delay : Int) (retry : Nat) : Nat :=
  1 + call_id + (if 0 < delay then 1 else 0) + retry

/-- Whether the logical call goes through `_schedule_activity` or
`_schedule_workflow` (task.py:223-229); a sub-workflow carries the random
uuid token used to mangle its workflow id. -/
inductive CallKind
  | activityC
  | workflowC (tok : Key)

/-- The `sched` callback `_schedule` receives (task.py:223-229). -/
def doSched (rl : Int) (kind : CallKind) (σ : SchedState) (callId : Nat)
    (input : String) : SchedState :=
  match kind with
  | .activityC => schedActivity rl σ callId input
  | .workflowC tok => schedWorkflow rl σ tok callId input

/-- The observable result of `_schedule`: the returned
`(state, value, order)` triple (`none` when the body raised), the cursor
after the `finally` block, the scheduler state, and the `_scheduled` flag. -/
structure ScheduleOut where
  res : Option SearchRes
  cursor : Nat
  sched : SchedState
  scheduledFlag : Bool
deriving DecidableEq

/-- `_schedule` (task.py:231-249).  With a truthy delay the timer is
consulted first: a pending timer or a newly scheduled timer returns
`_RUNNING`; a fired timer bumps the cursor by one and falls through to the
retry scan.  A `_NOTFOUND` scan schedules a fresh attempt under the current
cursor and returns `_RUNNING`.  The `finally` block always moves the cursor
to `reserveCallIds c0 delay retry`. -/
def pySchedule (snap : WSnap) (rl : Int) (kind : CallKind) (input : String)
    (σ : SchedState) (scheduled0 : Bool) (c0 : Nat) (delay : Int)
    (retry : Nat) : ScheduleOut :=
  let afterTimer : Nat → Option SearchRes × SchedState × Bool := fun c =>
    match searchResult snap c retry with
    | none => (none, σ, scheduled0)
    | some (.notfoundS, cid) =>
        (some .runningS, doSched rl kind σ cid input, true)
    | some (.runningS, _) => (some .runningS, σ, scheduled0)
    | some (.timedoutS p, _) => (some (.timedoutS p), σ, scheduled0)
    | some (.errorS r p, _) => (some (.errorS r p), σ, scheduled0)
    | some (.foundS v p, _) => (some (.foundS v p), σ, scheduled0)
  let body : Option SearchRes × SchedState × Bool :=
    if delay ≠ 0 then
      match searchTimer snap c0 with
      | .runningT => (some .runningS, σ, scheduled0)
      | .notfoundT => (some .runningS, schedTimer rl σ delay c0, true)
      | .foundT => afterTimer (c0 + 1)
    else afterTimer c0
  { res := body.1, cursor := reserveCallIds c0 delay retry,
    sched := body.2.1, scheduledFlag := body.2.2 }

/-- The width of the call-id window a call with the given delay and retry
reserves. -/
def callWindow (delay : Int) (retry : Nat) : Nat :=
  1 + (if 0 < delay then 1 else 0) + retry

/-- Run a source-ordered sequence of logical calls
`(kind, input, delay, retry)` through `pySchedule`, threading the scheduler
state, the `_scheduled` flag and the cursor, and return the final cursor. -/
def scheduleSeq (snap : WSnap) (rl : Int) :
    List (CallKind × String × Int × Nat) → SchedState → Bool → Nat → Nat
  | [], _, _, c => c
  | (kind, inp, d, r) :: rest, σ, sch, c =>
    let out := pySchedule snap rl kind inp σ sch c d r
    scheduleSeq snap rl rest out.sched out.scheduledFlag out.cursor

/-! ## Claim C2: unconditional cursor reservation -/

theorem pySchedule_cursor (snap : WSnap) (rl : Int) (kind : CallKind)
    (input : String) (σ : SchedState) (sch0 : Bool) (c0 : Nat) (delay : Int)
    (retry : Nat) :
    (pySchedule snap rl kind input σ sch0 c0 delay retry).cursor =
      c0 + callWindow delay retry := by
  unfold pySchedule reserveCallIds callWindow
  simp only
  omega

/-- C2: on every exit path of `_schedule` — pending timer, newly started
timer, suspension, error, result, timeout, fresh attempt, or a raised
exception — the cursor advances to exactly
`c0 + 1 + (1 if delay > 0 else 0) + retry`; consequently the final cursor
of any source-ordered sequence of logical calls is the start cursor plus
the sum of the per-call windows, independent of the snapshot, the scheduler
state and the `_scheduled` flag, so the k-th logical call always starts at
the same call id. -/
theorem C2_call_id_reservation (snap : WSnap) (rl : Int) (kind : CallKind)
    (input : String) (σ : SchedState) (sch0 : Bool) (c0 : Nat) (delay : Int)
    (retry : Nat) (calls : List (CallKind × String × Int × Nat)) :
    (pySchedule snap rl kind input σ sch0 c0 delay retry).cursor =
      c0 + 1 + (if 0 < delay then 1 else 0) + retry ∧
    scheduleSeq snap rl calls σ sch0 c0 =
      c0 + (calls.map (fun q => callWindow q.2.2.1 q.2.2.2)).sum := by
  constructor
  · rw [pySchedule_cursor]
    unfold callWindow
    omega
  · induction calls generalizing σ sch0 c0 with
    | nil => simp [scheduleSeq]
    | cons q rest ih =>
      obtain ⟨kindq, inpq, dq, rq⟩ := q
      unfold scheduleSeq
      rw [ih _ _ _, pySchedule_cursor]
      simp only [List.map_cons, List.sum_cons]
      omega

/-! ## Claim C4: the retry scan -/

theorem searchResult_timedout_zero (snap : WSnap) (c : Nat)
    (hc : c ∈ snap.timedout) :
    searchResult snap c 0 =
      (pyIndex snap.order c).map (fun p => (.timedoutS p, c)) := by
  rw [searchResult.eq_def]
  dsimp only
  rw [if_pos hc]
  cases pyIndex snap.order c <;> simp

theorem searchResult_shift (snap : WSnap) (c m : Nat)
    (hc : c ∈ snap.timedout) :
    searchResult snap c (m + 1) = searchResult snap (c + 1) m := by
  conv_lhs => rw [searchResult.eq_def]
  dsimp only
  rw [if_pos hc]

theorem searchResult_head (snap : WSnap) (c n : Nat)
    (hc : c ∉ snap.timedout) :
    searchResult snap c n =
      (if c ∈ snap.running then some (.runningS, c)
       else
        match snap.errors.lookup c with
        | some reason =>
            (pyIndex snap.order c).map (fun p => (.errorS reason p, c))
        | none =>
          match snap.results.lookup c with
          | some v => (pyIndex snap.order c).map (fun p => (.foundS v p, c))
          | none => some (.notfoundS, c)) := by
  rw [searchResult.eq_def]
  dsimp only
  rw [if_neg hc]
  by_cases hr : c ∈ snap.running
  · rw [if_pos hr, if_pos hr]
  · rw [if_neg hr, if_neg hr]
    cases snap.errors.lookup c with
    | some reason => cases pyIndex snap.order c <;> simp
    | none =>
      cases snap.results.lookup c with
      | some v => cases pyIndex snap.order c <;> simp
      | none => simp

theorem searchResult_skip (snap : WSnap) (c r k : Nat) (hkr : k ≤ r)
    (hpre : ∀ j, j < k → c + j ∈ snap.timedout) :
    searchResult snap c r = searchResult snap (c + k) (r - k) := by
  induction k generalizing c r with
  | zero => simp
  | succ k ih =>
    have hc : c ∈ snap.timedout := by simpa using hpre 0 (Nat.succ_pos k)
    obtain ⟨r2, rfl⟩ : ∃ r2, r = r2 + 1 := ⟨r - 1, by omega⟩
    rw [searchResult_shift snap c r2 hc]
    have hrec := ih (c + 1) r2 (by omega)
      (fun j hj => by
        have := hpre (j + 1) (by omega)
        have harith : c + (j + 1) = c + 1 + j := by omega
        rwa [harith] at this)
    rw [hrec]
    have h1 : c + 1 + k = c + (k + 1) := by omega
    have h2 : r2 - k = r2 + 1 - (k + 1) := by omega
    rw [h1, h2]

theorem searchResult_all_timedout (snap : WSnap) (c r : Nat)
    (h : ∀ j, j ≤ r → c + j ∈ snap.timedout) :
    searchResult snap c r =
      (pyIndex snap.order (c + r)).map (fun p => (.timedoutS p, c + r)) := by
  have hlast : c + r ∈ snap.timedout := h r le_rfl
  rw [searchResult_skip snap c r r le_rfl (fun j hj => h j (le_of_lt hj))]
  simp only [Nat.sub_self]
  exact searchResult_timedout_zero snap (c + r) hlast

/-- C4: in the retry scan over ids `c, ..., c + r`, an id in `timedout`
consumes one retry and the scan continues; at the first id `c + k` outside
`timedout`: membership in `running` yields the suspension outcome, a key of
`errors` yields `Error` with that reason and position `order.index(c+k)`, a
key of `results` yields the stored value with its position; and when all
`r + 1` ids are in `timedout` the call times out at position
`order.index(c+r)`. -/
theorem C4_retry_scan (snap : WSnap) (c r : Nat) :
    ((∀ j, j ≤ r → c + j ∈ snap.timedout) →
      searchResult snap c r =
        (pyIndex snap.order (c + r)).map (fun p => (.timedoutS p, c + r)))
    ∧ (∀ k, k ≤ r → (∀ j, j < k → c + j ∈ snap.timedout) →
        c + k ∉ snap.timedout →
      ((c + k ∈ snap.running →
          searchResult snap c r = some (.runningS, c + k))
       ∧ (c + k ∉ snap.running →
          ∀ reason, snap.errors.lookup (c + k) = some reason →
          searchResult snap c r =
            (pyIndex snap.order (c + k)).map
              (fun p => (.errorS reason p, c + k)))
       ∧ (c + k ∉ snap.running → snap.errors.lookup (c + k) = none →
          ∀ v, snap.results.lookup (c + k) = some v →
          searchResult snap c r =
            (pyIndex snap.order (c + k)).map
              (fun p => (.foundS v p, c + k))))) := by
  constructor
  · exact searchResult_all_timedout snap c r
  · intro k hkr hpre hk
    have hskip := searchResult_skip snap c r k hkr hpre
    have hhead := searchResult_head snap (c + k) (r - k) hk
    refine ⟨?_, ?_, ?_⟩
    · intro hrun
      rw [hskip, hhead, if_pos hrun]
    · intro hrun reason herr
      rw [hskip, hhead, if_neg hrun, herr]
    · intro hrun herr v hres
      rw [hskip, hhead, if_neg hrun, herr, hres]

/-- Witness for `C4_retry_scan` on the concrete snapshot with
`timedout = {0, 1}`, `errors = [(2, "boom")]`, `order = [0, 1, 2]`,
`c = 0`, `r = 2`: ids 0 and 1 consume the retries and id 2 reports the
error at position 2. -/
theorem C4_retry_scan_witness :
    searchResult
      { running := ∅, timedout := {0, 1}, results := [],
        errors := [(2, "boom")], order := [0, 1, 2] } 0 2 =
      some (.errorS "boom" 2, 2) := by
  have h := (C4_retry_scan
    { running := ∅, timedout := {0, 1}, results := [],
      errors := [(2, "boom")], order := [0, 1, 2] } 0 2).2 2
    (by decide) (fun j hj => by interval_cases j <;> decide) (by decide)
  have h2 := h.2.1 (by decide) "boom" (by decide)
  rw [h2]
  decide

/-! ## Claim C8: serialization failures inside a decision turn

Two code paths are cited.  `SWFActivityProxy.schedule` (swf.py:421-440)
fails the workflow when serializing a call's *input arguments* raises.
`_SWFWorkflow._finish` (task.py:205-221) handles the workflow's *return
value*: on a serialization `TypeError` it logs and returns `False` without
emitting anything. -/

/-- The value the user workflow body returned, as `_finish` distinguishes
it: a plain value, a `Result` wrapper (whose `result()` yields the value),
or an `Error`/`Timeout` wrapper (whose `result()` raises a `TaskError`
carrying the message). -/
inductive WfRes
  | plain (v : String)
  | resultW (v : String)
  | errorW (msg : String)
  | timeoutW (msg : String)
deriving DecidableEq

/-- `_SWFWorkflow._finish` (task.py:205-221).  `ser` is
`_serialize_result`, `none` modelling a raised `TypeError`.  An
`Error`/`Timeout` return fails the workflow with the `TaskError` message; a
value with nothing scheduled and nothing running is serialized — on failure
return `False` and touch nothing — and completed; otherwise just flush. -/
def pyFinish (σ : SchedState) (ser : String → Option String)
    (scheduled : Bool) (running : Finset Nat) (res : WfRes) :
    Bool × SchedState :=
  match res with
  | .errorW m => schedFail σ m
  | .timeoutW m => schedFail σ m
  | .plain v | .resultW v =>
    if scheduled = false ∧ running = ∅ then
      match ser v with
      | none => (false, σ)
      | some enc => schedComplete σ enc
    else schedFlush σ

/-- The slice of `SWFWorkflowContext` (swf.py:636-741) the modelled methods
touch: the `results` bucket (read by `timer_ready`), the decision buffer,
the closed flag, and the log of responses sent. -/
structure CtxState where
  results : List (Key × Option Key)
  decisions : List TDecision
  closed : Bool
  sent : List (List TDecision)
deriving DecidableEq

/-- `SWFWorkflowContext.flush` (swf.py:687-696): first call sends the
buffer and closes; later calls do nothing; a transport error is swallowed
(modelled as always succeeding). -/
def ctx_flush (c : CtxState) : CtxState :=
  if c.closed then c
  else { c with closed := true, sent := c.sent ++ [c.decisions] }

/-- `SWFWorkflowContext.fail` (swf.py:682-685): replace the buffer with the
single fail decision (reason truncated to `_REASON_SIZE = 256`) and flush. -/
def ctx_fail (c : CtxState) (reason : String) : CtxState :=
  ctx_flush { c with decisions := [.failWorkflowExecution (reason.take 256)] }

/-- `SWFWorkflowContext.timer_ready` (swf.py:679-680): the mangled timer
key is a `results` key. -/
def ctx_timer_ready (c : CtxState) (call_key : Key) : Bool :=
  (c.results.lookup (timer_key call_key)).isSome

/-- `SWFWorkflowContext.schedule_timer` (swf.py:716-719): append a
start-timer decision under the mangled timer key. -/
def ctx_schedule_timer (c : CtxState) (call_key : Key) (delay : Int) :
    CtxState :=
  { c with decisions :=
      c.decisions ++ [.startTimer (timer_key call_key) (toString delay).toList] }

/-- `SWFWorkflowContext.schedule_activity` (swf.py:721-731): append a
schedule-activity decision under the plain call key (name, version and the
timeout fields are dropped from the model). -/
def ctx_schedule_activity (c : CtxState) (call_key : Key) (input : String) :
    CtxState :=
  { c with decisions := c.decisions ++ [.scheduleActivityTask call_key input] }

/-- `SWFWorkflowContext.schedule_workflow` (swf.py:733-741): mangle the
call key with `_subworkflow_key` (a fresh uuid token and a colon) and
append a start-child decision under it. -/
def ctx_schedule_workflow (c : CtxState) (tok : Key) (call_key : Key)
    (input : String) : CtxState :=
  { c with decisions :=
      c.decisions ++ [.startChildWorkflowExecution (subworkflow_key tok call_key) input] }

/-- `SWFActivityProxy.schedule` (swf.py:421-440): with a positive delay and
no fired timer, start the timer; otherwise serialize the input — failing
the workflow with the exception message when serialization raises — and
schedule the activity.  `ser_input` is `serialize_input(*args, **kwargs)`,
an `Except` whose error is the exception message. -/
def proxy_schedule (c : CtxState) (call_key : Key) (delay : Int)
    (ser_input : Except String String) : CtxState :=
  if 0 < delay ∧ ctx_timer_ready c call_key = false then
    ctx_schedule_timer c call_key delay
  else
    match ser_input with
    | .error e => ctx_fail c e
    | .ok input => ctx_schedule_activity c call_key input

/-- C8 counterexample: when serializing the workflow's *return value*
fails (`scheduled = False`, nothing running), `_finish` returns `False`
and the scheduler neither holds nor sends any decision — in particular no
fail decision is emitted, contrary to the claim. -/
theorem C8_counterexample :
    (pyFinish schedInit (fun _ => none) false ∅ (.plain "v")).1 = false
    ∧ (pyFinish schedInit (fun _ => none) false ∅ (.plain "v")).2.sent = []
    ∧ (pyFinish schedInit (fun _ => none) false ∅ (.plain "v")).2.decisions = [] := by
  refine ⟨rfl, rfl, rfl⟩

/-- C8 amended: a serialization failure while encoding a *call's input
arguments* makes `SWFActivityProxy.schedule` fail the workflow with the
exception message (a single fail decision, flushed); a serialization
failure while encoding the workflow's *return value* makes `_finish`
return `False` with no decision emitted at all (the decision task is left
to time out and be redispatched). -/
theorem C8_amended :
    (∀ (c : CtxState) (ck : Key) (d : Int) (e : String),
      (d ≤ 0 ∨ ctx_timer_ready c ck = true) → c.closed = false →
      proxy_schedule c ck d (.error e) =
        { c with decisions := [.failWorkflowExecution (e.take 256)],
                 closed := true,
                 sent := c.sent ++ [[.failWorkflowExecution (e.take 256)]] })
    ∧ (∀ (σ : SchedState) (ser : String → Option String) (v : String),
      ser v = none →
      pyFinish σ ser false ∅ (.plain v) = (false, σ)
      ∧ pyFinish σ ser false ∅ (.resultW v) = (false, σ)) := by
  constructor
  · intro c ck d e hd hcl
    unfold proxy_schedule
    rw [if_neg (by
      intro hcontra
      cases hd with
      | inl hle => omega
      | inr hrdy => rw [hrdy] at hcontra; exact absurd hcontra.2 (by simp))]
    unfold ctx_fail ctx_flush
    dsimp only
    rw [hcl]
    simp
  · intro σ ser v hser
    constructor
    · unfold pyFinish
      dsimp only
      rw [if_pos ⟨rfl, rfl⟩, hser]
    · unfold pyFinish
      dsimp only
      rw [if_pos ⟨rfl, rfl⟩, hser]

/-- Witness for `C8_amended` at concrete inputs: a failing input encoder
on an un-closed context with no delay, and the concrete `_finish` case of
`C8_counterexample`. -/
theorem C8_amended_witness :
    proxy_schedule
      { results := [], decisions := [], closed := false, sent := [] }
      ['0'] 0 (.error "bad json") =
      { results := [], decisions := [.failWorkflowExecution ("bad json".take 256)],
        closed := true,
        sent := [[.failWorkflowExecution ("bad json".take 256)]] }
    ∧ pyFinish schedInit (fun _ => none) false ∅ (.plain "v") = (false, schedInit) := by
  constructor
  · exact (C8_amended.1
      { results := [], decisions := [], closed := false, sent := [] }
      ['0'] 0 "bad json" (Or.inl (by omega)) rfl)
  · exact (C8_amended.2 schedInit (fun _ => none) "v" rfl).1

/-! ## Claim C9: child workflow id mangling -/

theorem splitColon_ne_nil (k : Key) : splitColon k ≠ [] := by
  cases k with
  | nil => simp [splitColon]
  | cons c rest =>
    rw [splitColon]
    cases h : splitColon rest with
    | nil => simp
    | cons f fs =>
      dsimp only
      by_cases hc : c = ':'
      · rw [if_pos hc]; simp
      · rw [if_neg hc]; simp

theorem splitColon_colonFree (k : Key) (h : colonFree k) :
    splitColon k = [k] := by
  induction k with
  | nil => rfl
  | cons c rest ih =>
    have hc : c ≠ ':' := by
      intro hcontra
      exact h (by rw [hcontra]; exact List.mem_cons_self _ _)
    have hrest : colonFree rest := fun hmem => h (List.mem_cons_of_mem _ hmem)
    rw [splitColon, ih hrest]
    dsimp only
    rw [if_neg hc]

theorem splitColon_append_length (a b : Key) :
    2 ≤ (splitColon (a ++ ':' :: b)).length := by
  induction a with
  | nil =>
    rw [List.nil_append, splitColon]
    cases h : splitColon b with
    | nil => exact absurd h (splitColon_ne_nil b)
    | cons f fs =>
      dsimp only
      rw [if_pos rfl]
      simp
  | cons c a2 ih =>
    rw [List.cons_append, splitColon]
    cases h : splitColon (a2 ++ ':' :: b) with
    | nil => exact absurd h (splitColon_ne_nil _)
    | cons f fs =>
      dsimp only
      rw [h] at ih
      by_cases hc : c = ':'
      · rw [if_pos hc]; simp
      · rw [if_neg hc]; simpa using ih

theorem subworkflow_call_key_append (a b : Key) :
    subworkflow_call_key (a ++ ':' :: b) = subworkflow_call_key b := by
  induction a with
  | nil =>
    unfold subworkflow_call_key
    rw [List.nil_append, splitColon]
    cases h : splitColon b with
    | nil => exact absurd h (splitColon_ne_nil b)
    | cons f fs =>
      dsimp only
      rw [if_pos rfl]
      rw [List.getLastD_cons, List.getLastD_cons]
  | cons c a2 ih =>
    unfold subworkflow_call_key at ih ⊢
    rw [List.cons_append, splitColon]
    cases h : splitColon (a2 ++ ':' :: b) with
    | nil => exact absurd h (splitColon_ne_nil _)
    | cons f fs =>
      have hlen := splitColon_append_length a2 b
      rw [h] at hlen
      obtain ⟨g, gs, rfl⟩ : ∃ g gs, fs = g :: gs := by
        cases fs with
        | nil => simp at hlen
        | cons g gs => exact ⟨g, gs, rfl⟩
      rw [h] at ih
      dsimp only
      by_cases hc : c = ':'
      · rw [if_pos hc]
        rw [← ih]
        simp [List.getLastD_cons]
      · rw [if_neg hc]
        rw [← ih]
        simp [List.getLastD_cons]

theorem subworkflow_call_key_of_colonFree (a b : Key) (hb : colonFree b) :
    subworkflow_call_key (a ++ ':' :: b) = b := by
  rw [subworkflow_call_key_append]
  unfold subworkflow_call_key
  rw [splitColon_colonFree b hb]
  rfl

theorem subworkflow_id_append (a b : Key) (hb : ('-' : Char) ∉ b) :
    subworkflow_id (a ++ '-' :: b) = b := by
  unfold subworkflow_id
  rw [List.reverse_append, List.reverse_cons, List.append_assoc]
  rw [List.takeWhile_append_of_pos
    (fun x hx => by
      simp only [decide_eq_true_eq]
      intro hcontra
      rw [hcontra] at hx
      exact hb (by simpa using List.mem_reverse.mp hx))]
  have hsing : (['-'] ++ a.reverse).takeWhile (fun c => decide (c ≠ '-')) = [] := by
    rw [List.singleton_append, List.takeWhile_cons]
    simp
  rw [hsing, List.append_nil, List.reverse_reverse]

/-- C9 counterexample: `SWFScheduler.schedule_workflow` (task.py:336-339)
builds the child workflow id as `'%s-%s' % (uuid4(), call_id)` — a hyphen,
not a colon.  For the realistic uuid token
`"0b7e6d6e-42f2-4b9f-9b3a-8f3f3c2a1d5e"` and call id 7 the emitted
workflow id contains no colon at all, so the folder's suffix rule
`split(':')[-1]` returns the whole id, not the call id `"7"`. -/
theorem C9_counterexample :
    (schedWorkflow 64 schedInit
        ("0b7e6d6e-42f2-4b9f-9b3a-8f3f3c2a1d5e".toList) 7 "in").decisions =
      [.startChildWorkflowExecution
        ("0b7e6d6e-42f2-4b9f-9b3a-8f3f3c2a1d5e-7".toList) "in"]
    ∧ subworkflow_call_key ("0b7e6d6e-42f2-4b9f-9b3a-8f3f3c2a1d5e-7".toList) ≠
        natKey 7
    ∧ subworkflow_call_key ("0b7e6d6e-42f2-4b9f-9b3a-8f3f3c2a1d5e-7".toList) =
        ("0b7e6d6e-42f2-4b9f-9b3a-8f3f3c2a1d5e-7".toList) := by
  refine ⟨by decide, by decide, by decide⟩

/-- C9 amended: child workflows started through
`SWFWorkflowContext.schedule_workflow` (swf.py:733-741) get the workflow id
`_subworkflow_key = "<uuid>:<call-id>"`; since a uuid token contains no
colon, the suffix after the last colon is exactly the call id, and the
folder (`_subworkflow_call_key`, applied by `load_events` to every
child-workflow event) recovers exactly that call id.
`SWFScheduler.schedule_workflow` (task.py:336-339) instead emits
`"<uuid>-<call-id>"`, whose call id is recovered by `_subworkflow_id`
(`rsplit('-', 1)`), not by the folder's colon rule. -/
theorem C9_amended (tok call_key : Key) (hck : colonFree call_key)
    (hyph : ('-' : Char) ∉ call_key) (c : CtxState) (input : String)
    (s : FoldSt) :
    subworkflow_call_key (subworkflow_key tok call_key) = call_key
    ∧ (ctx_schedule_workflow c tok call_key input).decisions =
        c.decisions ++
          [.startChildWorkflowExecution (tok ++ ':' :: call_key) input]
    ∧ foldStep s
        (.startChildWorkflowExecutionInitiated (subworkflow_key tok call_key)) =
        .ok { s with running := insert call_key s.running }
    ∧ subworkflow_id (tok ++ '-' :: call_key) = call_key := by
  have hkey : subworkflow_call_key (subworkflow_key tok call_key) = call_key :=
    subworkflow_call_key_of_colonFree tok call_key hck
  refine ⟨hkey, rfl, ?_, subworkflow_id_append tok call_key hyph⟩
  rw [foldStep, hkey]

/-- Witness for `C9_amended` at the uuid token `"u1-u2"` and call id
`"7"`. -/
theorem C9_amended_witness :
    subworkflow_call_key (subworkflow_key "u1-u2".toList "7".toList) =
      "7".toList
    ∧ subworkflow_id ("u1-u2".toList ++ '-' :: "7".toList) = "7".toList := by
  have h := C9_amended "u1-u2".toList "7".toList (by decide) (by decide)
    { results := [], decisions := [], closed := false, sent := [] } "in"
    foldInit
  exact ⟨h.1, h.2.2.2⟩

/-! ## Claim C7: pagination retries and the poll restart

`poll_response_page` (swf.py:518-531) retries a continuation-page fetch up
to 7 times and raises `_PaginationError` when every attempt fails.
`poll_next_decision` (swf.py:477-502) catches `_PaginationError` and
restarts itself — but the recursive call at swf.py:499 is
`poll_next_decision(layer1, task_list, domain, identity)` while the
signature is `poll_next_decision(layer1, domain, task_list, identity)`:
the `domain` and `task_list` arguments are swapped. -/

/-- One history page as returned by `poll_for_decision_task`. -/
structure Page where
  events : List SwfEvent
  nextPageToken : Option String
deriving DecidableEq

/-- `poll_response_page` (swf.py:518-531): try the fetch up to 7 times
(`for _ in range(7)`), returning the first successful response; `none`
models the `for`-`else` raising `_PaginationError`.  `fetch i` is the
outcome of the `i`-th `poll_for_decision_task` call for this token. -/
def poll_response_page (fetch : Nat → Option Page) : Option Page :=
  (List.range 7).findSome? fetch

/-- The outcome of draining the `events` generator (swf.py:533-542). -/
inductive PagRes
  | okEvents (evs : List SwfEvent)
  | pagError
  | outOfFuel
deriving DecidableEq

/-- The `events` generator (swf.py:533-542): yield the current page's
events, then follow `nextPageToken` through `poll_response_page`.
`fetch tok i` is the `i`-th fetch attempt for continuation token `tok`;
`fuel` bounds the number of continuation pages followed (the Python
generator would loop forever on a token cycle). -/
def collect_events (fetch : String → Nat → Option Page) :
    Nat → Page → PagRes
  | fuel, page =>
    match page.nextPageToken with
    | none => .okEvents page.events
    | some tok =>
      match fuel with
      | 0 => .outOfFuel
      | f + 1 =>
        match poll_response_page (fetch tok) with
        | none => .pagError
        | some next =>
          match collect_events fetch f next with
          | .okEvents evs => .okEvents (page.events ++ evs)
          | e => e

/-- The observable outcome of one `poll_next_decision` attempt. -/
inductive PollOut
  | gotContext (snap : FoldSt)
  | retryPoll (domain : String) (task_list : String)
  | raised (e : FoldErr)
  | noFuel
deriving DecidableEq

/-- One attempt of `poll_next_decision` (swf.py:477-502), from the first
page on: drain all pages, fold them with `load_events`, and build the
context.  On `_PaginationError` the source returns
`poll_next_decision(layer1, task_list, domain, identity)` (swf.py:499);
that recursion is represented by `.retryPoll` carrying the `domain` and
`task_list` arguments of the recursive call in positional order. -/
def poll_next_decision_step (domain task_list : String)
    (fetch : String → Nat → Option Page) (fuel : Nat) (first_page : Page) :
    PollOut :=
  match collect_events fetch fuel first_page with
  | .outOfFuel => .noFuel
  | .pagError => .retryPoll task_list domain
  | .okEvents evs =>
    match load_events evs with
    | .error e => .raised e
    | .ok snap => .gotContext snap

/-- C7: evaluating the code at the failing input.  When all 7 retries for
a continuation token fail, `poll_response_page` signals `_PaginationError`
(first conjunct; an attempt succeeding at the last try still yields the
page, third conjunct), and the decision turn polling domain `"D"` and task
list `"T"` is abandoned with a restart that polls domain `"T"` and task
list `"D"` — the two arguments swapped — instead of the same domain and
task list the claim (and swf.py:477's own signature) prescribes. -/
theorem C7_pagination_restart_swapped :
    poll_response_page (fun _ => none) = none
    ∧ poll_next_decision_step "D" "T" (fun _ _ => none) 5
        { events := [], nextPageToken := some "tok" } =
        .retryPoll "T" "D"
    ∧ PollOut.retryPoll "T" "D" ≠ PollOut.retryPoll "D" "T"
    ∧ poll_response_page
        (fun i => if i = 6 then
          some { events := [], nextPageToken := none } else none) =
        some { events := [], nextPageToken := none } := by
  refine ⟨rfl, rfl, by decide, rfl⟩

/-! ## Claim C10: totality of the history folder -/

/-- Advance the folder state, keeping it unchanged when the step raises
(used only to thread state through well-formedness checkers). -/
def stepD (s : FoldSt) (e : SwfEvent) : FoldSt :=
  match foldStep s e with
  | .ok s2 => s2
  | .error _ => s

/-- The `eventId`s recorded by `ActivityTaskScheduled` events
(the keys `load_events` puts into `event2call`). -/
def recordedIds : List SwfEvent → List Nat
  | [] => []
  | .activityTaskScheduled eid _ :: rest => eid :: recordedIds rest
  | _ :: rest => recordedIds rest

/-- The call key a resolving event refers to in state `s`: the
`event2call` entry for the activity trio, the workflow-id suffix for the
child trio, the stripped timer key for `TimerFired`. -/
def eventRefKey (s : FoldSt) : SwfEvent → Option Key
  | .activityTaskCompleted seid _ => s.event2call.lookup seid
  | .activityTaskFailed seid _ => s.event2call.lookup seid
  | .activityTaskTimedOut seid => s.event2call.lookup seid
  | .childWorkflowExecutionCompleted wid _ => some (subworkflow_call_key wid)
  | .childWorkflowExecutionFailed wid _ => some (subworkflow_call_key wid)
  | .childWorkflowExecutionTimedOut wid => some (subworkflow_call_key wid)
  | .timerFired tid => timer_call_key tid
  | _ => none

/-- The well-formedness condition the claim states for one event against
the current folder state: every `ActivityTask{Completed,Failed,TimedOut}`
carries a recorded `scheduledEventId`, and every
completion/failure/timeout/`TimerFired` refers to a call key currently in
`running`. -/
def claimCondB (s : FoldSt) : SwfEvent → Bool
  | .activityTaskCompleted seid _ =>
    match s.event2call.lookup seid with
    | some k => decide (k ∈ s.running)
    | none => false
  | .activityTaskFailed seid _ =>
    match s.event2call.lookup seid with
    | some k => decide (k ∈ s.running)
    | none => false
  | .activityTaskTimedOut seid =>
    match s.event2call.lookup seid with
    | some k => decide (k ∈ s.running)
    | none => false
  | .childWorkflowExecutionCompleted wid _ =>
    decide (subworkflow_call_key wid ∈ s.running)
  | .childWorkflowExecutionFailed wid _ =>
    decide (subworkflow_call_key wid ∈ s.running)
  | .childWorkflowExecutionTimedOut wid =>
    decide (subworkflow_call_key wid ∈ s.running)
  | .timerFired tid =>
    match timer_call_key tid with
    | some b => decide (b ∈ s.running)
    | none => true
  | _ => true

/-- The claim's well-formedness precondition over a history, threading the
folder state through the events. -/
def claimWFB (s : FoldSt) : List SwfEvent → Bool
  | [] => true
  | e :: rest => claimCondB s e && claimWFB (stepD s e) rest

theorem load_from_append (s : FoldSt) (evs1 evs2 : List SwfEvent) :
    load_from s (evs1 ++ evs2) =
      match load_from s evs1 with
      | .ok s2 => load_from s2 evs2
      | .error e => .error e := by
  induction evs1 generalizing s with
  | nil => rfl
  | cons e rest ih =>
    rw [List.cons_append, load_from, load_from]
    cases foldStep s e with
    | error err => rfl
    | ok s2 => exact ih s2

theorem recordedIds_cons_sub (e : SwfEvent) (rest : List SwfEvent) :
    recordedIds rest ⊆ recordedIds (e :: rest) := by
  intro x hx
  cases e <;> simp [recordedIds, hx]

theorem lookup_cons_ne (eid seid : Nat) (k : Key) (m : List (Nat × Key))
    (h : seid ≠ eid) : ((eid, k) :: m).lookup seid = m.lookup seid := by
  rw [List.lookup]
  have hbeq : (seid == eid) = false := by simpa using h
  rw [hbeq]

/-- A successful `foldStep` leaves `event2call` unchanged unless the event
is `ActivityTaskScheduled`, which prepends its binding. -/
theorem foldStep_e2c (s s2 : FoldSt) (e : SwfEvent)
    (h : foldStep s e = .ok s2) :
    s2.event2call = s.event2call ∨
      ∃ eid k, e = .activityTaskScheduled eid k ∧
        s2.event2call = (eid, k) :: s.event2call := by
  cases e with
  | activityTaskScheduled eid k =>
    refine Or.inr ⟨eid, k, rfl, ?_⟩
    rw [foldStep] at h
    injection h with h
    rw [← h]
  | activityTaskCompleted seid res =>
    left
    rw [foldStep] at h
    repeat' split at h
    all_goals first
      | exact Except.noConfusion h
      | (injection h with h; rw [← h])
  | activityTaskFailed seid res =>
    left
    rw [foldStep] at h
    repeat' split at h
    all_goals first
      | exact Except.noConfusion h
      | (injection h with h; rw [← h])
  | activityTaskTimedOut seid =>
    left
    rw [foldStep] at h
    repeat' split at h
    all_goals first
      | exact Except.noConfusion h
      | (injection h with h; rw [← h])
  | scheduleActivityTaskFailed eid cause =>
    left
    rw [foldStep] at h
    injection h with h
    rw [← h]
  | startChildWorkflowExecutionInitiated wid =>
    left
    rw [foldStep] at h
    injection h with h
    rw [← h]
  | childWorkflowExecutionCompleted wid res =>
    left
    rw [foldStep] at h
    repeat' split at h
    all_goals first
      | exact Except.noConfusion h
      | (injection h with h; rw [← h])
  | childWorkflowExecutionFailed wid res =>
    left
    rw [foldStep] at h
    repeat' split at h
    all_goals first
      | exact Except.noConfusion h
      | (injection h with h; rw [← h])
  | childWorkflowExecutionTimedOut wid =>
    left
    rw [foldStep] at h
    repeat' split at h
    all_goals first
      | exact Except.noConfusion h
      | (injection h with h; rw [← h])
  | startChildWorkflowExecutionFailed wid cause =>
    left
    rw [foldStep] at h
    injection h with h
    rw [← h]
  | timerStarted tid =>
    left
    rw [foldStep] at h
    repeat' split at h
    all_goals first
      | exact Except.noConfusion h
      | (injection h with h; rw [← h])
  | timerFired tid =>
    left
    rw [foldStep] at h
    repeat' split at h
    all_goals first
      | exact Except.noConfusion h
      | (injection h with h; rw [← h])
  | otherEvent =>
    left
    rw [foldStep] at h
    injection h with h
    rw [← h]

theorem e2c_lookup_none (evs : List SwfEvent) (s s2 : FoldSt) (seid : Nat)
    (h : load_from s evs = .ok s2) (h1 : seid ∉ recordedIds evs)
    (h2 : s.event2call.lookup seid = none) :
    s2.event2call.lookup seid = none := by
  induction evs generalizing s with
  | nil =>
    rw [load_from] at h
    injection h with h
    rw [← h]
    exact h2
  | cons e rest ih =>
    rw [load_from] at h
    cases hstep : foldStep s e with
    | error err => rw [hstep] at h; simp at h
    | ok smid =>
      rw [hstep] at h
      dsimp only at h
      refine ih smid h (fun hmem => h1 (recordedIds_cons_sub e rest hmem)) ?_
      rcases foldStep_e2c s smid e hstep with heq | ⟨eid, k, hev, heq⟩
      · rw [heq]; exact h2
      · have hne : seid ≠ eid := by
          intro hcontra
          apply h1
          rw [hev, hcontra]
          simp [recordedIds]
        rw [heq, lookup_cons_ne eid seid k _ hne]
        exact h2

/-- A resolving event whose referred call key is not currently running
makes `foldStep` raise. -/
theorem foldStep_err_of_refKey (s : FoldSt) (e : SwfEvent) (k : Key)
    (href : eventRefKey s e = some k) (hrun : k ∉ s.running) :
    ∃ err, foldStep s e = .error err := by
  cases e with
  | activityTaskCompleted seid res =>
    rw [eventRefKey] at href
    rw [foldStep, href]
    dsimp only
    rw [setRemove, if_neg hrun]
    exact ⟨.keyErrorSet, rfl⟩
  | activityTaskFailed seid res =>
    rw [eventRefKey] at href
    rw [foldStep, href]
    dsimp only
    rw [setRemove, if_neg hrun]
    exact ⟨.keyErrorSet, rfl⟩
  | activityTaskTimedOut seid =>
    rw [eventRefKey] at href
    rw [foldStep, href]
    dsimp only
    rw [setRemove, if_neg hrun]
    exact ⟨.keyErrorSet, rfl⟩
  | childWorkflowExecutionCompleted wid res =>
    rw [eventRefKey] at href
    injection href with href
    subst href
    rw [foldStep, setRemove, if_neg hrun]
    exact ⟨.keyErrorSet, rfl⟩
  | childWorkflowExecutionFailed wid res =>
    rw [eventRefKey] at href
    injection href with href
    subst href
    rw [foldStep, setRemove, if_neg hrun]
    exact ⟨.keyErrorSet, rfl⟩
  | childWorkflowExecutionTimedOut wid =>
    rw [eventRefKey] at href
    injection href with href
    subst href
    rw [foldStep, setRemove, if_neg hrun]
    exact ⟨.keyErrorSet, rfl⟩
  | timerFired tid =>
    rw [eventRefKey] at href
    rw [foldStep, href]
    dsimp only
    rw [setRemove, if_neg hrun]
    exact ⟨.keyErrorSet, rfl⟩
  | activityTaskScheduled eid x => simp [eventRefKey] at href
  | scheduleActivityTaskFailed x c => simp [eventRefKey] at href
  | startChildWorkflowExecutionInitiated wid => simp [eventRefKey] at href
  | startChildWorkflowExecutionFailed wid c => simp [eventRefKey] at href
  | timerStarted tid => simp [eventRefKey] at href
  | otherEvent => simp [eventRefKey] at href

/-- A successful `foldStep` implies the claim's per-event well-formedness
condition. -/
theorem claimCondB_of_ok (s s2 : FoldSt) (e : SwfEvent)
    (h : foldStep s e = .ok s2) : claimCondB s e = true := by
  cases e with
  | activityTaskCompleted seid res =>
    rw [foldStep] at h
    rw [claimCondB]
    cases hlk : s.event2call.lookup seid with
    | none => rw [hlk] at h; simp at h
    | some k =>
      rw [hlk] at h
      dsimp only at h ⊢
      rw [setRemove] at h
      by_cases hk : k ∈ s.running
      · simpa using hk
      · rw [if_neg hk] at h; exact Except.noConfusion h
  | activityTaskFailed seid res =>
    rw [foldStep] at h
    rw [claimCondB]
    cases hlk : s.event2call.lookup seid with
    | none => rw [hlk] at h; simp at h
    | some k =>
      rw [hlk] at h
      dsimp only at h ⊢
      rw [setRemove] at h
      by_cases hk : k ∈ s.running
      · simpa using hk
      · rw [if_neg hk] at h; exact Except.noConfusion h
  | activityTaskTimedOut seid =>
    rw [foldStep] at h
    rw [claimCondB]
    cases hlk : s.event2call.lookup seid with
    | none => rw [hlk] at h; simp at h
    | some k =>
      rw [hlk] at h
      dsimp only at h ⊢
      rw [setRemove] at h
      by_cases hk : k ∈ s.running
      · simpa using hk
      · rw [if_neg hk] at h; exact Except.noConfusion h
  | childWorkflowExecutionCompleted wid res =>
    rw [foldStep, setRemove] at h
    rw [claimCondB]
    by_cases hk : subworkflow_call_key wid ∈ s.running
    · simpa using hk
    · rw [if_neg hk] at h; exact Except.noConfusion h
  | childWorkflowExecutionFailed wid res =>
    rw [foldStep, setRemove] at h
    rw [claimCondB]
    by_cases hk : subworkflow_call_key wid ∈ s.running
    · simpa using hk
    · rw [if_neg hk] at h; exact Except.noConfusion h
  | childWorkflowExecutionTimedOut wid =>
    rw [foldStep, setRemove] at h
    rw [claimCondB]
    by_cases hk : subworkflow_call_key wid ∈ s.running
    · simpa using hk
    · rw [if_neg hk] at h; exact Except.noConfusion h
  | timerFired tid =>
    rw [foldStep] at h
    rw [claimCondB]
    cases htk : timer_call_key tid with
    | none => rw [htk] at h
    | some b =>
      rw [htk] at h
      dsimp only at h ⊢
      rw [setRemove] at h
      by_cases hb : b ∈ s.running
      · simpa using hb
      · rw [if_neg hb] at h; exact Except.noConfusion h
  | activityTaskScheduled eid x => rfl
  | scheduleActivityTaskFailed x c => rfl
  | startChildWorkflowExecutionInitiated wid => rfl
  | startChildWorkflowExecutionFailed wid c => rfl
  | timerStarted tid => rfl
  | otherEvent => rfl

theorem foldStep_assertErr_of_condB (s : FoldSt) (e : SwfEvent)
    (err : FoldErr) (hcond : claimCondB s e = true)
    (h : foldStep s e = .error err) : err = .assertErr := by
  cases e with
  | activityTaskCompleted seid res =>
    rw [claimCondB] at hcond
    rw [foldStep] at h
    cases hlk : s.event2call.lookup seid with
    | none => rw [hlk] at hcond; exact absurd hcond (by simp)
    | some k =>
      rw [hlk] at hcond h
      dsimp only at h
      simp only [decide_eq_true_eq] at hcond
      rw [setRemove, if_pos hcond] at h
      exact Except.noConfusion h
  | activityTaskFailed seid res =>
    rw [claimCondB] at hcond
    rw [foldStep] at h
    cases hlk : s.event2call.lookup seid with
    | none => rw [hlk] at hcond; exact absurd hcond (by simp)
    | some k =>
      rw [hlk] at hcond h
      dsimp only at h
      simp only [decide_eq_true_eq] at hcond
      rw [setRemove, if_pos hcond] at h
      exact Except.noConfusion h
  | activityTaskTimedOut seid =>
    rw [claimCondB] at hcond
    rw [foldStep] at h
    cases hlk : s.event2call.lookup seid with
    | none => rw [hlk] at hcond; exact absurd hcond (by simp)
    | some k =>
      rw [hlk] at hcond h
      dsimp only at h
      simp only [decide_eq_true_eq] at hcond
      rw [setRemove, if_pos hcond] at h
      exact Except.noConfusion h
  | childWorkflowExecutionCompleted wid res =>
    rw [claimCondB] at hcond
    simp only [decide_eq_true_eq] at hcond
    rw [foldStep, setRemove, if_pos hcond] at h
    exact Except.noConfusion h
  | childWorkflowExecutionFailed wid res =>
    rw [claimCondB] at hcond
    simp only [decide_eq_true_eq] at hcond
    rw [foldStep, setRemove, if_pos hcond] at h
    exact Except.noConfusion h
  | childWorkflowExecutionTimedOut wid =>
    rw [claimCondB] at hcond
    simp only [decide_eq_true_eq] at hcond
    rw [foldStep, setRemove, if_pos hcond] at h
    exact Except.noConfusion h
  | timerFired tid =>
    rw [claimCondB] at hcond
    rw [foldStep] at h
    cases htk : timer_call_key tid with
    | none =>
      rw [htk] at h
      injection h with h
      rw [← h]
    | some b =>
      rw [htk] at hcond h
      dsimp only at h
      simp only [decide_eq_true_eq] at hcond
      rw [setRemove, if_pos hcond] at h
      exact Except.noConfusion h
  | timerStarted tid =>
    rw [foldStep] at h
    cases htk : timer_call_key tid with
    | none =>
      rw [htk] at h
      injection h with h
      rw [← h]
    | some b =>
      rw [htk] at h
      exact Except.noConfusion h
  | activityTaskScheduled eid x => rw [foldStep] at h; exact Except.noConfusion h
  | scheduleActivityTaskFailed x c => rw [foldStep] at h; exact Except.noConfusion h
  | startChildWorkflowExecutionInitiated wid => rw [foldStep] at h; exact Except.noConfusion h
  | startChildWorkflowExecutionFailed wid c => rw [foldStep] at h; exact Except.noConfusion h
  | otherEvent => rw [foldStep] at h; exact Except.noConfusion h

theorem load_from_assertErr_of_wf (evs : List SwfEvent) (s : FoldSt)
    (err : FoldErr) (hwf : claimWFB s evs = true)
    (h : load_from s evs = .error err) : err = .assertErr := by
  induction evs generalizing s with
  | nil => rw [load_from] at h; exact Except.noConfusion h
  | cons e rest ih =>
    rw [claimWFB, Bool.and_eq_true] at hwf
    rw [load_from] at h
    cases hstep : foldStep s e with
    | error err2 =>
      rw [hstep] at h
      injection h with h
      rw [← h]
      exact foldStep_assertErr_of_condB s e err2 hwf.1 hstep
    | ok smid =>
      rw [hstep] at h
      dsimp only at h
      have hmid : stepD s e = smid := by rw [stepD, hstep]
      rw [hmid] at hwf
      exact ih smid hwf.2 h

theorem claimWFB_of_ok (evs : List SwfEvent) (s s2 : FoldSt)
    (h : load_from s evs = .ok s2) : claimWFB s evs = true := by
  induction evs generalizing s with
  | nil => rfl
  | cons e rest ih =>
    rw [load_from] at h
    cases hstep : foldStep s e with
    | error err => rw [hstep] at h; exact Except.noConfusion h
    | ok smid =>
      rw [hstep] at h
      dsimp only at h
      rw [claimWFB, Bool.and_eq_true]
      have hmid : stepD s e = smid := by rw [stepD, hstep]
      exact ⟨claimCondB_of_ok s smid e hstep, by rw [hmid]; exact ih smid h⟩

theorem load_events_append_err (pre post : List SwfEvent) (e : SwfEvent)
    (h : ∀ s2, load_from foldInit pre = .ok s2 →
      ∃ err2, foldStep s2 e = .error err2) :
    ∃ err, load_events (pre ++ e :: post) = .error err := by
  rw [load_events, load_from_append]
  cases hpre : load_from foldInit pre with
  | error e2 => exact ⟨e2, rfl⟩
  | ok s2 =>
    obtain ⟨err2, herr2⟩ := h s2 hpre
    refine ⟨err2, ?_⟩
    dsimp only
    rw [load_from, herr2]

/-- C10: (a) an `ActivityTaskCompleted` / `Failed` / `TimedOut` event whose
`scheduledEventId` no prior `ActivityTaskScheduled` event recorded makes
`load_events` raise instead of returning a snapshot; (b) a resolving event
whose call key is not currently in `running` likewise makes it raise;
(c) under the claim's well-formedness precondition neither `KeyError`
branch is reachable — any failure left is the `_timer_call_key` assertion;
and (d) a history on which `load_events` returns a snapshot is
well-formed. -/
theorem C10_folder_totality :
    (∀ (pre post : List SwfEvent) (seid : Nat) (x : Key),
      seid ∉ recordedIds pre →
      (∃ err, load_events (pre ++ .activityTaskCompleted seid x :: post) = .error err)
      ∧ (∃ err, load_events (pre ++ .activityTaskFailed seid x :: post) = .error err)
      ∧ (∃ err, load_events (pre ++ .activityTaskTimedOut seid :: post) = .error err))
    ∧ (∀ (pre post : List SwfEvent) (e : SwfEvent) (s2 : FoldSt) (k : Key),
        load_from foldInit pre = .ok s2 →
        eventRefKey s2 e = some k → k ∉ s2.running →
        ∃ err, load_events (pre ++ e :: post) = .error err)
    ∧ (∀ (evs : List SwfEvent) (err : FoldErr),
        claimWFB foldInit evs = true → load_events evs = .error err →
        err = .assertErr)
    ∧ (∀ (evs : List SwfEvent) (s2 : FoldSt),
        load_events evs = .ok s2 → claimWFB foldInit evs = true) := by
  refine ⟨?_, ?_, ?_, ?_⟩
  · intro pre post seid x hni
    have hlkof : ∀ s2, load_from foldInit pre = .ok s2 →
        s2.event2call.lookup seid = none := fun s2 hpre =>
      e2c_lookup_none pre foldInit s2 seid hpre hni rfl
    refine ⟨?_, ?_, ?_⟩
    · refine load_events_append_err pre post _ (fun s2 hpre => ?_)
      rw [foldStep, hlkof s2 hpre]
      exact ⟨.keyErrorMap, rfl⟩
    · refine load_events_append_err pre post _ (fun s2 hpre => ?_)
      rw [foldStep, hlkof s2 hpre]
      exact ⟨.keyErrorMap, rfl⟩
    · refine load_events_append_err pre post _ (fun s2 hpre => ?_)
      rw [foldStep, hlkof s2 hpre]
      exact ⟨.keyErrorMap, rfl⟩
  · intro pre post e s2 k hpre href hrun
    refine load_events_append_err pre post e (fun s2b hpre2 => ?_)
    rw [hpre] at hpre2
    injection hpre2 with hpre2
    rw [← hpre2]
    exact foldStep_err_of_refKey s2 e k href hrun
  · intro evs err hwf h
    exact load_from_assertErr_of_wf evs foldInit err hwf h
  · intro evs s2 h
    exact claimWFB_of_ok evs foldInit s2 h

/-- Witness for `C10_folder_totality`: the one-event history whose
completion refers to the unrecorded `scheduledEventId` 5 raises, and the
two-event schedule-then-complete history is well-formed (it folds to a
snapshot). -/
theorem C10_folder_totality_witness :
    (∃ err, load_events [SwfEvent.activityTaskCompleted 5 ['x']] = .error err)
    ∧ claimWFB foldInit [SwfEvent.activityTaskScheduled 1 ['0'],
        SwfEvent.activityTaskCompleted 1 ['v']] = true := by
  constructor
  · exact (C10_folder_totality.1 [] [] 5 ['x'] (by decide)).1
  · exact C10_folder_totality.2.2.2
      [SwfEvent.activityTaskScheduled 1 ['0'],
       SwfEvent.activityTaskCompleted 1 ['v']]
      { running := ∅, timedout := ∅, results := [(['0'], some ['v'])],
        errors := [], order := [['0']], event2call := [(1, ['0'])] }
      (by decide)

/-! ## Claim C1: snapshot invariants

The claim fails on the code as stated: a fired timer stores a result under
the mangled `"<id>:t"` key without appending anything to `order`, so
`|order| = |timedout| + |results| + |errors|` already fails on the
two-event history `[TimerStarted "0:t", TimerFired "0:t"]`, which
`load_events` accepts.  The invariant that does hold — under a
well-formedness condition ruling out reuse of already finalized call ids —
is stated over the non-timer result keys. -/

theorem lookup_mem_pairs (m : List (Nat × Key)) (seid : Nat) (k : Key)
    (h : m.lookup seid = some k) : (seid, k) ∈ m := by
  induction m with
  | nil => exact Option.noConfusion h
  | cons p rest ih =>
    obtain ⟨a, v⟩ := p
    rw [List.lookup] at h
    cases hba : (seid == a) with
    | true =>
      rw [hba] at h
      injection h with h
      have ha : seid = a := by simpa using hba
      rw [← ha, h]
      exact List.mem_cons_self _ _
    | false =>
      rw [hba] at h
      exact List.mem_cons_of_mem _ (ih h)

theorem not_colonFree_of_endsT (k : Key) (h : endsT k) : ¬ colonFree k := by
  intro hcf
  unfold endsT at h
  have hmem : ':' ∈ k.reverse.take 2 := by rw [h]; simp
  exact hcf (List.mem_reverse.mp (List.take_subset 2 k.reverse hmem))

theorem endsT_of_timer_call_key (tid b : Key)
    (h : timer_call_key tid = some b) : endsT tid := by
  unfold timer_call_key at h
  by_cases he : endsT tid
  · exact he
  · rw [if_neg he] at h
    exact Option.noConfusion h

theorem colonFree_splitColon (w : Key) : ∀ f ∈ splitColon w, colonFree f := by
  induction w with
  | nil =>
    intro f hf
    simp [splitColon] at hf
    rw [hf]
    intro hmem
    simp at hmem
  | cons c rest ih =>
    intro f hf
    rw [splitColon] at hf
    cases hsp : splitColon rest with
    | nil => exact absurd hsp (splitColon_ne_nil rest)
    | cons f0 fs0 =>
      rw [hsp] at hf
      dsimp only at hf
      by_cases hc : c = ':'
      · rw [if_pos hc] at hf
        rcases List.mem_cons.mp hf with h1 | h2
        · rw [h1]; intro hmem; simp at hmem
        · exact ih f (by rw [hsp]; exact h2)
      · rw [if_neg hc] at hf
        rcases List.mem_cons.mp hf with h1 | h2
        · rw [h1]
          intro hmem
          rcases List.mem_cons.mp hmem with hx | hx
          · exact hc hx.symm
          · exact ih f0 (by rw [hsp]; exact List.mem_cons_self _ _) hx
        · exact ih f (by rw [hsp]; exact List.mem_cons_of_mem _ h2)

theorem getLastD_mem (l : List Key) (d : Key) (h : l ≠ []) :
    l.getLastD d ∈ l := by
  rw [List.getLastD_eq_getLast? d l, List.getLast?_eq_getLast l h]
  simp [List.getLast_mem]

theorem colonFree_subworkflow_call_key (w : Key) :
    colonFree (subworkflow_call_key w) := by
  unfold subworkflow_call_key
  exact colonFree_splitColon w _ (getLastD_mem _ _ (splitColon_ne_nil w))

theorem dictKeys_cons (k : Key) (v : α) (m : List (Key × α)) :
    dictKeys ((k, v) :: m) = insert k (dictKeys m) := by
  unfold dictKeys
  rw [List.map_cons, List.toFinset_cons]

/-- The snapshot invariant maintained by a well-formed fold: the buckets
are pairwise disjoint, `order` lists without duplicates exactly the
timed-out ids, the error keys and the colon-free (non-timer) result keys;
`running`, `timedout` and the error keys hold only colon-free ids, result
keys are colon-free or timer-mangled, and every `event2call` value is
colon-free. -/
structure BucketsInv (s : FoldSt) : Prop where
  run_dis : ∀ k ∈ s.running,
    k ∉ s.timedout ∧ k ∉ dictKeys s.errors ∧ k ∉ dictKeys s.results
  td_dis : ∀ k ∈ s.timedout, k ∉ dictKeys s.errors ∧ k ∉ dictKeys s.results
  err_dis : ∀ k ∈ dictKeys s.errors, k ∉ dictKeys s.results
  order_nodup : s.order.Nodup
  order_iff : ∀ k, k ∈ s.order ↔
    (k ∈ s.timedout ∨ k ∈ dictKeys s.errors ∨
      (k ∈ dictKeys s.results ∧ colonFree k))
  run_cf : ∀ k ∈ s.running, colonFree k
  td_cf : ∀ k ∈ s.timedout, colonFree k
  err_cf : ∀ k ∈ dictKeys s.errors, colonFree k
  res_cf : ∀ k ∈ dictKeys s.results, colonFree k ∨ endsT k
  e2c_cf : ∀ p ∈ s.event2call, colonFree p.2

/-- The key is absent from all four snapshot buckets. -/
def freshKey (s : FoldSt) (k : Key) : Bool :=
  decide (k ∉ s.running) && decide (k ∉ s.timedout) &&
  decide (k ∉ dictKeys s.errors) && decide (k ∉ dictKeys s.results)

/-- The per-event well-formedness condition for the amended C1: resolving
events refer to a currently running key, newly introduced ids are
colon-free and fresh (never seen in any bucket), and timer ids carry the
`:t` suffix over a colon-free base. -/
def invCondB (s : FoldSt) : SwfEvent → Bool
  | .activityTaskScheduled _ k => decide (colonFree k) && freshKey s k
  | .activityTaskCompleted seid _ =>
    match s.event2call.lookup seid with
    | some k => decide (k ∈ s.running)
    | none => false
  | .activityTaskFailed seid _ =>
    match s.event2call.lookup seid with
    | some k => decide (k ∈ s.running)
    | none => false
  | .activityTaskTimedOut seid =>
    match s.event2call.lookup seid with
    | some k => decide (k ∈ s.running)
    | none => false
  | .scheduleActivityTaskFailed k _ => decide (colonFree k) && freshKey s k
  | .startChildWorkflowExecutionInitiated wid =>
    freshKey s (subworkflow_call_key wid)
  | .childWorkflowExecutionCompleted wid _ =>
    decide (subworkflow_call_key wid ∈ s.running)
  | .childWorkflowExecutionFailed wid _ =>
    decide (subworkflow_call_key wid ∈ s.running)
  | .childWorkflowExecutionTimedOut wid =>
    decide (subworkflow_call_key wid ∈ s.running)
  | .startChildWorkflowExecutionFailed wid _ =>
    freshKey s (subworkflow_call_key wid)
  | .timerStarted tid =>
    match timer_call_key tid with
    | some b => decide (colonFree b) && freshKey s b
    | none => false
  | .timerFired tid =>
    match timer_call_key tid with
    | some b => decide (b ∈ s.running)
    | none => false
  | .otherEvent => true

/-- The amended C1 well-formedness over a history. -/
def invWFB (s : FoldSt) : List SwfEvent → Bool
  | [] => true
  | e :: rest => invCondB s e && invWFB (stepD s e) rest

theorem inv_resolve_result (s : FoldSt) (k : Key) (v : Option Key)
    (hinv : BucketsInv s) (hk : k ∈ s.running) :
    BucketsInv { s with running := s.running.erase k,
                        results := (k, v) :: s.results,
                        order := s.order ++ [k] } := by
  obtain ⟨hkt, hke, hkr⟩ := hinv.run_dis k hk
  have hcf := hinv.run_cf k hk
  have hko : k ∉ s.order := fun hmem => by
    rcases (hinv.order_iff k).mp hmem with h | h | h
    · exact hkt h
    · exact hke h
    · exact hkr h.1
  refine ⟨?_, ?_, ?_, ?_, ?_, ?_, ?_, ?_, ?_, ?_⟩
  · intro x hx
    rw [Finset.mem_erase] at hx
    obtain ⟨hxk, hxr⟩ := hx
    obtain ⟨h1, h2, h3⟩ := hinv.run_dis x hxr
    refine ⟨h1, h2, ?_⟩
    rw [dictKeys_cons, Finset.mem_insert]
    rintro (h | h)
    · exact hxk h
    · exact h3 h
  · intro x hx
    obtain ⟨h1, h2⟩ := hinv.td_dis x hx
    refine ⟨h1, ?_⟩
    rw [dictKeys_cons, Finset.mem_insert]
    rintro (h | h)
    · rw [h] at hx; exact hkt hx
    · exact h2 h
  · intro x hx
    have h2 := hinv.err_dis x hx
    rw [dictKeys_cons, Finset.mem_insert]
    rintro (h | h)
    · rw [h] at hx; exact hke hx
    · exact h2 h
  · exact List.nodup_append.mpr ⟨hinv.order_nodup, List.nodup_singleton k,
      fun a ha hb => by
        rw [List.mem_singleton] at hb
        rw [hb] at ha
        exact hko ha⟩
  · intro x
    rw [List.mem_append, List.mem_singleton, dictKeys_cons, Finset.mem_insert]
    constructor
    · rintro (hx | rfl)
      · rcases (hinv.order_iff x).mp hx with h | h | ⟨h, hc⟩
        · exact Or.inl h
        · exact Or.inr (Or.inl h)
        · exact Or.inr (Or.inr ⟨Or.inr h, hc⟩)
      · exact Or.inr (Or.inr ⟨Or.inl rfl, hcf⟩)
    · rintro (h | h | ⟨(rfl | h), hc⟩)
      · exact Or.inl ((hinv.order_iff x).mpr (Or.inl h))
      · exact Or.inl ((hinv.order_iff x).mpr (Or.inr (Or.inl h)))
      · exact Or.inr rfl
      · exact Or.inl ((hinv.order_iff x).mpr (Or.inr (Or.inr ⟨h, hc⟩)))
  · intro x hx
    rw [Finset.mem_erase] at hx
    exact hinv.run_cf x hx.2
  · exact hinv.td_cf
  · exact hinv.err_cf
  · intro x hx
    rw [dictKeys_cons, Finset.mem_insert] at hx
    rcases hx with rfl | hx
    · exact Or.inl hcf
    · exact hinv.res_cf x hx
  · exact hinv.e2c_cf

theorem inv_resolve_error (s : FoldSt) (k : Key) (v : Key)
    (hinv : BucketsInv s) (hk : k ∈ s.running) :
    BucketsInv { s with running := s.running.erase k,
                        errors := (k, v) :: s.errors,
                        order := s.order ++ [k] } := by
  obtain ⟨hkt, hke, hkr⟩ := hinv.run_dis k hk
  have hcf := hinv.run_cf k hk
  have hko : k ∉ s.order := fun hmem => by
    rcases (hinv.order_iff k).mp hmem with h | h | h
    · exact hkt h
    · exact hke h
    · exact hkr h.1
  refine ⟨?_, ?_, ?_, ?_, ?_, ?_, ?_, ?_, ?_, ?_⟩
  · intro x hx
    rw [Finset.mem_erase] at hx
    obtain ⟨hxk, hxr⟩ := hx
    obtain ⟨h1, h2, h3⟩ := hinv.run_dis x hxr
    refine ⟨h1, ?_, h3⟩
    rw [dictKeys_cons, Finset.mem_insert]
    rintro (h | h)
    · exact hxk h
    · exact h2 h
  · intro x hx
    obtain ⟨h1, h2⟩ := hinv.td_dis x hx
    refine ⟨?_, h2⟩
    rw [dictKeys_cons, Finset.mem_insert]
    rintro (h | h)
    · rw [h] at hx; exact hkt hx
    · exact h1 h
  · intro x hx
    rw [dictKeys_cons, Finset.mem_insert] at hx
    rcases hx with rfl | hx
    · exact hkr
    · exact hinv.err_dis x hx
  · exact List.nodup_append.mpr ⟨hinv.order_nodup, List.nodup_singleton k,
      fun a ha hb => by
        rw [List.mem_singleton] at hb
        rw [hb] at ha
        exact hko ha⟩
  · intro x
    rw [List.mem_append, List.mem_singleton, dictKeys_cons, Finset.mem_insert]
    constructor
    · rintro (hx | rfl)
      · rcases (hinv.order_iff x).mp hx with h | h | ⟨h, hc⟩
        · exact Or.inl h
        · exact Or.inr (Or.inl (Or.inr h))
        · exact Or.inr (Or.inr ⟨h, hc⟩)
      · exact Or.inr (Or.inl (Or.inl rfl))
    · rintro (h | (rfl | h) | ⟨h, hc⟩)
      · exact Or.inl ((hinv.order_iff x).mpr (Or.inl h))
      · exact Or.inr rfl
      · exact Or.inl ((hinv.order_iff x).mpr (Or.inr (Or.inl h)))
      · exact Or.inl ((hinv.order_iff x).mpr (Or.inr (Or.inr ⟨h, hc⟩)))
  · intro x hx
    rw [Finset.mem_erase] at hx
    exact hinv.run_cf x hx.2
  · exact hinv.td_cf
  · intro x hx
    rw [dictKeys_cons, Finset.mem_insert] at hx
    rcases hx with rfl | hx
    · exact hcf
    · exact hinv.err_cf x hx
  · exact hinv.res_cf
  · exact hinv.e2c_cf

theorem inv_resolve_timeout (s : FoldSt) (k : Key)
    (hinv : BucketsInv s) (hk : k ∈ s.running) :
    BucketsInv { s with running := s.running.erase k,
                        timedout := insert k s.timedout,
                        order := s.order ++ [k] } := by
  obtain ⟨hkt, hke, hkr⟩ := hinv.run_dis k hk
  have hcf := hinv.run_cf k hk
  have hko : k ∉ s.order := fun hmem => by
    rcases (hinv.order_iff k).mp hmem with h | h | h
    · exact hkt h
    · exact hke h
    · exact hkr h.1
  refine ⟨?_, ?_, ?_, ?_, ?_, ?_, ?_, ?_, ?_, ?_⟩
  · intro x hx
    rw [Finset.mem_erase] at hx
    obtain ⟨hxk, hxr⟩ := hx
    obtain ⟨h1, h2, h3⟩ := hinv.run_dis x hxr
    refine ⟨?_, h2, h3⟩
    rw [Finset.mem_insert]
    rintro (h | h)
    · exact hxk h
    · exact h1 h
  · intro x hx
    rw [Finset.mem_insert] at hx
    rcases hx with rfl | hx
    · exact ⟨hke, hkr⟩
    · exact hinv.td_dis x hx
  · exact hinv.err_dis
  · exact List.nodup_append.mpr ⟨hinv.order_nodup, List.nodup_singleton k,
      fun a ha hb => by
        rw [List.mem_singleton] at hb
        rw [hb] at ha
        exact hko ha⟩
  · intro x
    rw [List.mem_append, List.mem_singleton, Finset.mem_insert]
    constructor
    · rintro (hx | rfl)
      · rcases (hinv.order_iff x).mp hx with h | h | ⟨h, hc⟩
        · exact Or.inl (Or.inr h)
        · exact Or.inr (Or.inl h)
        · exact Or.inr (Or.inr ⟨h, hc⟩)
      · exact Or.inl (Or.inl rfl)
    · rintro ((rfl | h) | h | ⟨h, hc⟩)
      · exact Or.inr rfl
      · exact Or.inl ((hinv.order_iff x).mpr (Or.inl h))
      · exact Or.inl ((hinv.order_iff x).mpr (Or.inr (Or.inl h)))
      · exact Or.inl ((hinv.order_iff x).mpr (Or.inr (Or.inr ⟨h, hc⟩)))
  · intro x hx
    rw [Finset.mem_erase] at hx
    exact hinv.run_cf x hx.2
  · intro x hx
    rw [Finset.mem_insert] at hx
    rcases hx with rfl | hx
    · exact hcf
    · exact hinv.td_cf x hx
  · exact hinv.err_cf
  · exact hinv.res_cf
  · exact hinv.e2c_cf

theorem freshKey_spec (s : FoldSt) (k : Key) (h : freshKey s k = true) :
    k ∉ s.running ∧ k ∉ s.timedout ∧
      k ∉ dictKeys s.errors ∧ k ∉ dictKeys s.results := by
  unfold freshKey at h
  simp only [Bool.and_eq_true, decide_eq_true_eq] at h
  exact ⟨h.1.1.1, h.1.1.2, h.1.2, h.2⟩

theorem inv_syncfail (s : FoldSt) (k : Key) (v : Key)
    (hinv : BucketsInv s) (hcf : colonFree k) (hf : freshKey s k = true) :
    BucketsInv { s with errors := (k, v) :: s.errors,
                        order := s.order ++ [k] } := by
  obtain ⟨hfr, hft, hfe, hfres⟩ := freshKey_spec s k hf
  have hko : k ∉ s.order := fun hmem => by
    rcases (hinv.order_iff k).mp hmem with h | h | h
    · exact hft h
    · exact hfe h
    · exact hfres h.1
  refine ⟨?_, ?_, ?_, ?_, ?_, ?_, ?_, ?_, ?_, ?_⟩
  · intro x hx
    obtain ⟨h1, h2, h3⟩ := hinv.run_dis x hx
    refine ⟨h1, ?_, h3⟩
    rw [dictKeys_cons, Finset.mem_insert]
    rintro (rfl | h)
    · exact hfr hx
    · exact h2 h
  · intro x hx
    obtain ⟨h1, h2⟩ := hinv.td_dis x hx
    refine ⟨?_, h2⟩
    rw [dictKeys_cons, Finset.mem_insert]
    rintro (rfl | h)
    · exact hft hx
    · exact h1 h
  · intro x hx
    rw [dictKeys_cons, Finset.mem_insert] at hx
    rcases hx with rfl | hx
    · exact hfres
    · exact hinv.err_dis x hx
  · exact List.nodup_append.mpr ⟨hinv.order_nodup, List.nodup_singleton k,
      fun a ha hb => by
        rw [List.mem_singleton] at hb
        rw [hb] at ha
        exact hko ha⟩
  · intro x
    rw [List.mem_append, List.mem_singleton, dictKeys_cons, Finset.mem_insert]
    constructor
    · rintro (hx | rfl)
      · rcases (hinv.order_iff x).mp hx with h | h | ⟨h, hc⟩
        · exact Or.inl h
        · exact Or.inr (Or.inl (Or.inr h))
        · exact Or.inr (Or.inr ⟨h, hc⟩)
      · exact Or.inr (Or.inl (Or.inl rfl))
    · rintro (h | (rfl | h) | ⟨h, hc⟩)
      · exact Or.inl ((hinv.order_iff x).mpr (Or.inl h))
      · exact Or.inr rfl
      · exact Or.inl ((hinv.order_iff x).mpr (Or.inr (Or.inl h)))
      · exact Or.inl ((hinv.order_iff x).mpr (Or.inr (Or.inr ⟨h, hc⟩)))
  · exact hinv.run_cf
  · exact hinv.td_cf
  · intro x hx
    rw [dictKeys_cons, Finset.mem_insert] at hx
    rcases hx with rfl | hx
    · exact hcf
    · exact hinv.err_cf x hx
  · exact hinv.res_cf
  · exact hinv.e2c_cf

theorem inv_insert_running (s : FoldSt) (k : Key)
    (hinv : BucketsInv s) (hcf : colonFree k) (hf : freshKey s k = true) :
    BucketsInv { s with running := insert k s.running } := by
  obtain ⟨_, hft, hfe, hfres⟩ := freshKey_spec s k hf
  refine ⟨?_, hinv.td_dis, hinv.err_dis, hinv.order_nodup, hinv.order_iff,
    ?_, hinv.td_cf, hinv.err_cf, hinv.res_cf, hinv.e2c_cf⟩
  · intro x hx
    rw [Finset.mem_insert] at hx
    rcases hx with rfl | hx
    · exact ⟨hft, hfe, hfres⟩
    · exact hinv.run_dis x hx
  · intro x hx
    rw [Finset.mem_insert] at hx
    rcases hx with rfl | hx
    · exact hcf
    · exact hinv.run_cf x hx

theorem inv_scheduled (s : FoldSt) (eid : Nat) (k : Key)
    (hinv : BucketsInv s) (hcf : colonFree k) (hf : freshKey s k = true) :
    BucketsInv { s with event2call := (eid, k) :: s.event2call,
                        running := insert k s.running } := by
  obtain ⟨_, hft, hfe, hfres⟩ := freshKey_spec s k hf
  refine ⟨?_, hinv.td_dis, hinv.err_dis, hinv.order_nodup, hinv.order_iff,
    ?_, hinv.td_cf, hinv.err_cf, hinv.res_cf, ?_⟩
  · intro x hx
    rw [Finset.mem_insert] at hx
    rcases hx with rfl | hx
    · exact ⟨hft, hfe, hfres⟩
    · exact hinv.run_dis x hx
  · intro x hx
    rw [Finset.mem_insert] at hx
    rcases hx with rfl | hx
    · exact hcf
    · exact hinv.run_cf x hx
  · intro p hp
    rcases List.mem_cons.mp hp with rfl | hp
    · exact hcf
    · exact hinv.e2c_cf p hp

theorem inv_timer_fired (s : FoldSt) (tid b : Key)
    (hinv : BucketsInv s) (ht : endsT tid) :
    BucketsInv { s with running := s.running.erase b,
                        results := (tid, none) :: s.results } := by
  have htcf := not_colonFree_of_endsT tid ht
  refine ⟨?_, ?_, ?_, hinv.order_nodup, ?_, ?_, hinv.td_cf, hinv.err_cf,
    ?_, hinv.e2c_cf⟩
  · intro x hx
    rw [Finset.mem_erase] at hx
    obtain ⟨h1, h2, h3⟩ := hinv.run_dis x hx.2
    refine ⟨h1, h2, ?_⟩
    rw [dictKeys_cons, Finset.mem_insert]
    rintro (rfl | h)
    · exact htcf (hinv.run_cf x hx.2)
    · exact h3 h
  · intro x hx
    obtain ⟨h1, h2⟩ := hinv.td_dis x hx
    refine ⟨h1, ?_⟩
    rw [dictKeys_cons, Finset.mem_insert]
    rintro (rfl | h)
    · exact htcf (hinv.td_cf x hx)
    · exact h2 h
  · intro x hx
    have h2 := hinv.err_dis x hx
    rw [dictKeys_cons, Finset.mem_insert]
    rintro (rfl | h)
    · exact htcf (hinv.err_cf x hx)
    · exact h2 h
  · intro x
    rw [hinv.order_iff x, dictKeys_cons, Finset.mem_insert]
    constructor
    · rintro (h | h | ⟨h, hc⟩)
      · exact Or.inl h
      · exact Or.inr (Or.inl h)
      · exact Or.inr (Or.inr ⟨Or.inr h, hc⟩)
    · rintro (h | h | ⟨(rfl | h), hc⟩)
      · exact Or.inl h
      · exact Or.inr (Or.inl h)
      · exact absurd hc htcf
      · exact Or.inr (Or.inr ⟨h, hc⟩)
  · intro x hx
    rw [Finset.mem_erase] at hx
    exact hinv.run_cf x hx.2
  · intro x hx
    rw [dictKeys_cons, Finset.mem_insert] at hx
    rcases hx with rfl | hx
    · exact Or.inr ht
    · exact hinv.res_cf x hx

theorem invCondB_ok (s : FoldSt) (e : SwfEvent) (hc : invCondB s e = true) :
    ∃ s2, foldStep s e = .ok s2 := by
  cases e with
  | activityTaskScheduled eid k => exact ⟨_, rfl⟩
  | activityTaskCompleted seid res =>
    rw [invCondB] at hc
    cases hlk : s.event2call.lookup seid with
    | none => rw [hlk] at hc; exact absurd hc (by simp)
    | some k =>
      rw [hlk] at hc
      simp only [decide_eq_true_eq] at hc
      rw [foldStep, hlk]
      dsimp only
      rw [setRemove, if_pos hc]
      exact ⟨_, rfl⟩
  | activityTaskFailed seid res =>
    rw [invCondB] at hc
    cases hlk : s.event2call.lookup seid with
    | none => rw [hlk] at hc; exact absurd hc (by simp)
    | some k =>
      rw [hlk] at hc
      simp only [decide_eq_true_eq] at hc
      rw [foldStep, hlk]
      dsimp only
      rw [setRemove, if_pos hc]
      exact ⟨_, rfl⟩
  | activityTaskTimedOut seid =>
    rw [invCondB] at hc
    cases hlk : s.event2call.lookup seid with
    | none => rw [hlk] at hc; exact absurd hc (by simp)
    | some k =>
      rw [hlk] at hc
      simp only [decide_eq_true_eq] at hc
      rw [foldStep, hlk]
      dsimp only
      rw [setRemove, if_pos hc]
      exact ⟨_, rfl⟩
  | scheduleActivityTaskFailed k cause => exact ⟨_, rfl⟩
  | startChildWorkflowExecutionInitiated wid => exact ⟨_, rfl⟩
  | childWorkflowExecutionCompleted wid res =>
    rw [invCondB] at hc
    simp only [decide_eq_true_eq] at hc
    rw [foldStep, setRemove, if_pos hc]
    exact ⟨_, rfl⟩
  | childWorkflowExecutionFailed wid res =>
    rw [invCondB] at hc
    simp only [decide_eq_true_eq] at hc
    rw [foldStep, setRemove, if_pos hc]
    exact ⟨_, rfl⟩
  | childWorkflowExecutionTimedOut wid =>
    rw [invCondB] at hc
    simp only [decide_eq_true_eq] at hc
    rw [foldStep, setRemove, if_pos hc]
    exact ⟨_, rfl⟩
  | startChildWorkflowExecutionFailed wid cause => exact ⟨_, rfl⟩
  | timerStarted tid =>
    rw [invCondB] at hc
    cases htk : timer_call_key tid with
    | none => rw [htk] at hc; exact absurd hc (by simp)
    | some b =>
      rw [foldStep, htk]
      exact ⟨_, rfl⟩
  | timerFired tid =>
    rw [invCondB] at hc
    cases htk : timer_call_key tid with
    | none => rw [htk] at hc; exact absurd hc (by simp)
    | some b =>
      rw [htk] at hc
      simp only [decide_eq_true_eq] at hc
      rw [foldStep, htk]
      dsimp only
      rw [setRemove, if_pos hc]
      exact ⟨_, rfl⟩
  | otherEvent => exact ⟨_, rfl⟩

theorem inv_step (s s2 : FoldSt) (e : SwfEvent) (hc : invCondB s e = true)
    (hstep : foldStep s e = .ok s2) (hinv : BucketsInv s) : BucketsInv s2 := by
  cases e with
  | activityTaskScheduled eid k =>
    rw [invCondB, Bool.and_eq_true, decide_eq_true_eq] at hc
    rw [foldStep] at hstep
    injection hstep with hstep
    rw [← hstep]
    exact inv_scheduled s eid k hinv hc.1 hc.2
  | activityTaskCompleted seid res =>
    rw [invCondB] at hc
    cases hlk : s.event2call.lookup seid with
    | none => rw [hlk] at hc; exact absurd hc (by simp)
    | some k =>
      rw [hlk] at hc
      simp only [decide_eq_true_eq] at hc
      rw [foldStep, hlk] at hstep
      dsimp only at hstep
      rw [setRemove, if_pos hc] at hstep
      injection hstep with hstep
      rw [← hstep]
      exact inv_resolve_result s k (some res) hinv hc
  | activityTaskFailed seid res =>
    rw [invCondB] at hc
    cases hlk : s.event2call.lookup seid with
    | none => rw [hlk] at hc; exact absurd hc (by simp)
    | some k =>
      rw [hlk] at hc
      simp only [decide_eq_true_eq] at hc
      rw [foldStep, hlk] at hstep
      dsimp only at hstep
      rw [setRemove, if_pos hc] at hstep
      injection hstep with hstep
      rw [← hstep]
      exact inv_resolve_error s k res hinv hc
  | activityTaskTimedOut seid =>
    rw [invCondB] at hc
    cases hlk : s.event2call.lookup seid with
    | none => rw [hlk] at hc; exact absurd hc (by simp)
    | some k =>
      rw [hlk] at hc
      simp only [decide_eq_true_eq] at hc
      rw [foldStep, hlk] at hstep
      dsimp only at hstep
      rw [setRemove, if_pos hc] at hstep
      injection hstep with hstep
      rw [← hstep]
      exact inv_resolve_timeout s k hinv hc
  | scheduleActivityTaskFailed k cause =>
    rw [invCondB, Bool.and_eq_true, decide_eq_true_eq] at hc
    rw [foldStep] at hstep
    injection hstep with hstep
    rw [← hstep]
    exact inv_syncfail s k cause hinv hc.1 hc.2
  | startChildWorkflowExecutionInitiated wid =>
    rw [invCondB] at hc
    rw [foldStep] at hstep
    injection hstep with hstep
    rw [← hstep]
    exact inv_insert_running s _ hinv (colonFree_subworkflow_call_key wid) hc
  | childWorkflowExecutionCompleted wid res =>
    rw [invCondB] at hc
    simp only [decide_eq_true_eq] at hc
    rw [foldStep, setRemove, if_pos hc] at hstep
    injection hstep with hstep
    rw [← hstep]
    exact inv_resolve_result s _ (some res) hinv hc
  | childWorkflowExecutionFailed wid res =>
    rw [invCondB] at hc
    simp only [decide_eq_true_eq] at hc
    rw [foldStep, setRemove, if_pos hc] at hstep
    injection hstep with hstep
    rw [← hstep]
    exact inv_resolve_error s _ res hinv hc
  | childWorkflowExecutionTimedOut wid =>
    rw [invCondB] at hc
    simp only [decide_eq_true_eq] at hc
    rw [foldStep, setRemove, if_pos hc] at hstep
    injection hstep with hstep
    rw [← hstep]
    exact inv_resolve_timeout s _ hinv hc
  | startChildWorkflowExecutionFailed wid cause =>
    rw [invCondB] at hc
    rw [foldStep] at hstep
    injection hstep with hstep
    rw [← hstep]
    exact inv_syncfail s _ cause hinv (colonFree_subworkflow_call_key wid) hc
  | timerStarted tid =>
    rw [invCondB] at hc
    cases htk : timer_call_key tid with
    | none => rw [htk] at hc; exact absurd hc (by simp)
    | some b =>
      rw [htk] at hc
      rw [Bool.and_eq_true, decide_eq_true_eq] at hc
      rw [foldStep, htk] at hstep
      dsimp only at hstep
      injection hstep with hstep
      rw [← hstep]
      exact inv_insert_running s b hinv hc.1 hc.2
  | timerFired tid =>
    rw [invCondB] at hc
    cases htk : timer_call_key tid with
    | none => rw [htk] at hc; exact absurd hc (by simp)
    | some b =>
      rw [htk] at hc
      simp only [decide_eq_true_eq] at hc
      rw [foldStep, htk] at hstep
      dsimp only at hstep
      rw [setRemove, if_pos hc] at hstep
      injection hstep with hstep
      rw [← hstep]
      exact inv_timer_fired s tid b hinv (endsT_of_timer_call_key tid b htk)
  | otherEvent =>
    rw [foldStep] at hstep
    injection hstep with hstep
    rw [← hstep]
    exact hinv

theorem bucketsInv_init : BucketsInv foldInit := by
  refine ⟨?_, ?_, ?_, ?_, ?_, ?_, ?_, ?_, ?_, ?_⟩ <;>
    simp [foldInit, dictKeys]

theorem load_from_bucketsInv (evs : List SwfEvent) (s : FoldSt)
    (hwf : invWFB s evs = true) (hinv : BucketsInv s) :
    ∃ s2, load_from s evs = .ok s2 ∧ BucketsInv s2 := by
  induction evs generalizing s with
  | nil => exact ⟨s, rfl, hinv⟩
  | cons e rest ih =>
    rw [invWFB, Bool.and_eq_true] at hwf
    obtain ⟨smid, hsmid⟩ := invCondB_ok s e hwf.1
    have hmid : stepD s e = smid := by rw [stepD, hsmid]
    obtain ⟨s3, h3, hinv3⟩ := ih smid (by rw [← hmid]; exact hwf.2)
      (inv_step s smid e hwf.1 hsmid hinv)
    refine ⟨s3, ?_, hinv3⟩
    rw [load_from, hsmid]
    exact h3

/-- C1 counterexample: `load_events` accepts the two-event history
`[TimerStarted "0:t", TimerFired "0:t"]`; its snapshot has the fired-timer
key `"0:t"` among the `results` keys but an empty `order`, so
`"0:t" ∈ keys(results)` never appears in `order` and
`|order| = 0 ≠ 1 = |timedout| + |results| + |errors|`. -/
theorem C1_counterexample :
    load_events [.timerStarted ['0', ':', 't'], .timerFired ['0', ':', 't']] =
      .ok { running := ∅, timedout := ∅,
            results := [(['0', ':', 't'], none)], errors := [],
            order := [], event2call := [] }
    ∧ (['0', ':', 't'] : Key) ∈
        dictKeys ([(['0', ':', 't'], (none : Option Key))])
    ∧ ([] : List Key).length ≠
        (∅ : Finset Key).card +
          (dictKeys ([(['0', ':', 't'], (none : Option Key))])).card +
          (∅ : Finset Key).card := by
  refine ⟨by decide, by decide, by decide⟩

/-- C1 amended: on every history satisfying `invWFB` — resolving events
refer to currently running keys, newly introduced call ids are colon-free
and never reuse an id already in a bucket, timer ids are `:t`-mangled over
a colon-free base — `load_events` returns a snapshot in which the four
buckets are pairwise disjoint; `order` lists exactly the ids of
`timedout ∪ keys(errors) ∪ {colon-free keys of results}`, each exactly
once; every non-colon-free result key is a fired-timer key (ends in `:t`)
and never appears in `order`; and
`|order| = |timedout| + |errors| + |non-timer results|`, that is,
`|timedout| + |results| + |errors|` minus the number of fired-timer
result keys. -/
theorem C1_amended (evs : List SwfEvent)
    (hwf : invWFB foldInit evs = true) :
    ∃ s, load_events evs = .ok s
      ∧ Disjoint s.running s.timedout
      ∧ Disjoint s.running (dictKeys s.errors)
      ∧ Disjoint s.running (dictKeys s.results)
      ∧ Disjoint s.timedout (dictKeys s.errors)
      ∧ Disjoint s.timedout (dictKeys s.results)
      ∧ Disjoint (dictKeys s.errors) (dictKeys s.results)
      ∧ (∀ k, k ∈ s.order ↔
          (k ∈ s.timedout ∨ k ∈ dictKeys s.errors ∨
            (k ∈ dictKeys s.results ∧ colonFree k)))
      ∧ s.order.Nodup
      ∧ (∀ k ∈ dictKeys s.results, ¬ colonFree k → endsT k)
      ∧ s.order.length = s.timedout.card + (dictKeys s.errors).card
          + ((dictKeys s.results).filter (fun k => colonFree k)).card := by
  obtain ⟨s, hs, hinv⟩ :=
    load_from_bucketsInv evs foldInit hwf bucketsInv_init
  have hd_te : Disjoint s.timedout (dictKeys s.errors) :=
    Finset.disjoint_left.mpr (fun x hx => (hinv.td_dis x hx).1)
  have hd_tr : Disjoint s.timedout (dictKeys s.results) :=
    Finset.disjoint_left.mpr (fun x hx => (hinv.td_dis x hx).2)
  have hd_er : Disjoint (dictKeys s.errors) (dictKeys s.results) :=
    Finset.disjoint_left.mpr hinv.err_dis
  refine ⟨s, hs,
    Finset.disjoint_left.mpr (fun x hx => (hinv.run_dis x hx).1),
    Finset.disjoint_left.mpr (fun x hx => (hinv.run_dis x hx).2.1),
    Finset.disjoint_left.mpr (fun x hx => (hinv.run_dis x hx).2.2),
    hd_te, hd_tr, hd_er, hinv.order_iff, ?_, ?_, ?_⟩
  · exact hinv.order_nodup
  · intro k hk hcf
    rcases hinv.res_cf k hk with h | h
    · exact absurd h hcf
    · exact h
  · have hset : s.order.toFinset =
        s.timedout ∪ dictKeys s.errors ∪
          (dictKeys s.results).filter (fun k => colonFree k) := by
      ext x
      rw [List.mem_toFinset, hinv.order_iff x]
      simp only [Finset.mem_union, Finset.mem_filter]
      tauto
    have hlen := List.toFinset_card_of_nodup hinv.order_nodup
    rw [← hlen, hset]
    have hd1 : Disjoint (s.timedout ∪ dictKeys s.errors)
        ((dictKeys s.results).filter (fun k => colonFree k)) := by
      rw [Finset.disjoint_union_left]
      constructor
      · exact hd_tr.mono_right (Finset.filter_subset _ _)
      · exact hd_er.mono_right (Finset.filter_subset _ _)
    rw [Finset.card_union_of_disjoint hd1,
      Finset.card_union_of_disjoint hd_te]

/-- Witness for `C1_amended` on the concrete well-formed history that
schedules activity `"0"`, completes it, starts the delay timer `"2:t"` and
fires it: `|order| = 1` and the fired-timer key is the one result key
excluded from the count. -/
theorem C1_amended_witness :
    ∃ s, load_events
        [SwfEvent.activityTaskScheduled 1 ['0'],
         SwfEvent.activityTaskCompleted 1 ['v'],
         SwfEvent.timerStarted ['2', ':', 't'],
         SwfEvent.timerFired ['2', ':', 't']] = .ok s
      ∧ s.order.length = s.timedout.card + (dictKeys s.errors).card
          + ((dictKeys s.results).filter (fun k => colonFree k)).card := by
  obtain ⟨s, hs, _, _, _, _, _, _, _, _, _, hlen⟩ :=
    C1_amended
      [SwfEvent.activityTaskScheduled 1 ['0'],
       SwfEvent.activityTaskCompleted 1 ['v'],
       SwfEvent.timerStarted ['2', ':', 't'],
       SwfEvent.timerFired ['2', ':', 't']]
      (by decide)
  exact ⟨s, hs, hlen⟩

end Flowy
